import Mathlib

/-!
# cf-downloader: the request client

A shallow embedding of `core/request/client.go`:

* `newSpec`      : the fixed TLS ClientHello description,
* `RoundTrip`    : `uTransport.RoundTrip`, the proxy tunnel, handshake and ALPN dispatch,
* `NewClient`, `setHeaders`,
* `DownloadFile` : the retrying, resuming download loop.

Library calls (network, file system, URL parsing, header-name canonicalisation) are
explicit inputs: every function takes the answers the library would give and returns,
next to its Go result, the list of library calls it made, in order.
-/

namespace CfDownloader

/-! ## Data model -/

/-- One byte of file or body content. Only positions and lengths matter here. -/
abbrev Byte := Nat

/-- Result of a library call with a Go `error` result: the value, or the error text. -/
inductive IOResult (α : Type) where
  | ok (a : α)
  | err (msg : String)
  deriving DecidableEq, Repr

/-- The fields of `url.URL` the client reads. `Port` and `Hostname` are the results of
the library methods `URL.Port()` and `URL.Hostname()`, carried along with the value. -/
structure URL where
  Scheme : String
  Host : String
  Port : String
  Hostname : String
  deriving DecidableEq, Repr

/-- Go's `http.Header` (`map[string][]string`) as an association list; the key of an
entry is the stored (canonical) name. -/
structure Header where
  entries : List (String × List String)
  deriving DecidableEq, Repr

/-- The values stored under a name, `none` when the name is absent. -/
def Header.values (h : Header) (name : String) : Option (List String) :=
  h.entries.lookup name

/-- Go's `Header.Set(key, value)`: the entry for the canonical form of `key` is replaced by
the single value. `canon` is `textproto.CanonicalMIMEHeaderKey`, library code. -/
def Header.Set (canon : String → String) (h : Header) (key value : String) : Header :=
  ⟨(canon key, [value]) :: h.entries.filter (fun e => e.1 != canon key)⟩

/-- The fields of `http.Request` the client reads or writes. -/
structure Request where
  Method : String
  URL : URL
  Header : Header
  Proto : String
  ProtoMajor : Nat
  ProtoMinor : Nat
  deriving DecidableEq, Repr

/-- A response body as the sequence of results of successive `Body.Read(buf)` calls:
`more data rest` is a read returning `data` with a nil error, `eof data` a read returning
`data` together with `io.EOF`, `fail data msg` a read returning `data` with another error.
A read never returns more than the 32 KiB buffer; the sizes of the reads are otherwise
free. -/
inductive Body where
  | eof (data : List Byte)
  | fail (data : List Byte) (msg : String)
  | more (data : List Byte) (rest : Body)
  deriving DecidableEq, Repr

/-- All bytes a body delivers, over all its reads. -/
def Body.bytes : Body → List Byte
  | .eof data => data
  | .fail data _ => data
  | .more data rest => data ++ rest.bytes

/-- Whether the last read of a body reports `io.EOF`. -/
def Body.endsEOF : Body → Bool
  | .eof _ => true
  | .fail _ _ => false
  | .more _ rest => rest.endsEOF

/-- The fields of `http.Response` the client reads. -/
structure Response where
  StatusCode : Int
  Status : String
  ContentLength : Int
  Body : Body
  deriving DecidableEq, Repr

/-- `RequestOption`: `Headers` is a Go map, `none` when nil. The list holds the map's
entries in the order `range` visits them in the call at hand. -/
structure RequestOption where
  Headers : Option (List (String × String))
  deriving DecidableEq, Repr

/-! ## The ClientHello description -/

/-- utls constant `GREASE_PLACEHOLDER`. -/
def GREASE_PLACEHOLDER : Nat := 0x0a0a

/-- utls constant `VersionTLS12`. -/
def VersionTLS12 : Nat := 0x0303

/-- utls constant `VersionTLS13`. -/
def VersionTLS13 : Nat := 0x0304

/-- utls constant `X25519`. -/
def X25519 : Nat := 29

/-- utls constant `CurveP256`. -/
def CurveP256 : Nat := 23

/-- utls constant `CurveP384`. -/
def CurveP384 : Nat := 24

/-- utls constant `PskModeDHE`. -/
def PskModeDHE : Nat := 1

/-- utls constant `CertCompressionBrotli`. -/
def CertCompressionBrotli : Nat := 0x0002

/-- The padding-length functions of utls that can fill `GetPaddingLen`. -/
inductive PaddingStyle where
  | BoringPaddingStyle
  deriving DecidableEq, Repr

/-- A utls `KeyShare`. -/
structure KeyShare where
  Group : Nat
  Data : List Nat
  deriving DecidableEq, Repr

/-- The utls extension values `newSpec` lists, each with the fields it sets. -/
inductive TLSExtension where
  | UtlsGREASEExtension
  | SNIExtension
  | ExtendedMasterSecretExtension
  | RenegotiationInfoExtension
  | SupportedCurvesExtension (Curves : List Nat)
  | SupportedPointsExtension (SupportedPoints : List Nat)
  | SessionTicketExtension
  | ALPNExtension (AlpnProtocols : List String)
  | StatusRequestExtension
  | SignatureAlgorithmsExtension (SupportedSignatureAlgorithms : List Nat)
  | SCTExtension
  | KeyShareExtension (KeyShares : List KeyShare)
  | PSKKeyExchangeModesExtension (Modes : List Nat)
  | SupportedVersionsExtension (Versions : List Nat)
  | UtlsCompressCertExtension (Algorithms : List Nat)
  | ApplicationSettingsExtension (SupportedProtocols : List String)
  | UtlsPaddingExtension (GetPaddingLen : PaddingStyle)
  deriving DecidableEq, Repr

/-- The utls `ClientHelloSpec`. `GetSessionID` is a function value, `none` when nil. -/
structure ClientHelloSpec where
  TLSVersMax : Nat
  TLSVersMin : Nat
  CipherSuites : List Nat
  CompressionMethods : List Nat
  Extensions : List TLSExtension
  GetSessionID : Option Unit
  deriving DecidableEq, Repr

/-- `http.Transport`: the one field the client sets. `Proxy` is a function value, `none`
when nil; called, it yields the proxy URL (possibly nil) or an error. -/
structure Transport where
  Proxy : Option (Request → IOResult (Option URL))

/-- `uTransport`. The `http2.Transport` in `tr2` carries no configuration. -/
structure uTransport where
  tr1 : Transport

/-- `uTransport.newSpec`: the receiver is unnamed and unused in the source. -/
def newSpec (_u : uTransport) : ClientHelloSpec where
  TLSVersMax := VersionTLS13
  TLSVersMin := VersionTLS12
  CipherSuites := [GREASE_PLACEHOLDER, 0x1301, 0x1302, 0x1303, 0xc02b, 0xc02f, 0xc02c,
    0xc030, 0xcca9, 0xcca8, 0xc013, 0xc014, 0x009c, 0x009d, 0x002f, 0x0035]
  CompressionMethods := [0x0]
  Extensions := [
    .UtlsGREASEExtension,
    .SNIExtension,
    .ExtendedMasterSecretExtension,
    .RenegotiationInfoExtension,
    .SupportedCurvesExtension [GREASE_PLACEHOLDER, X25519, CurveP256, CurveP384],
    .SupportedPointsExtension [0x0],
    .SessionTicketExtension,
    .ALPNExtension ["http/1.1"],
    .StatusRequestExtension,
    .SignatureAlgorithmsExtension
      [0x0403, 0x0804, 0x0401, 0x0503, 0x0805, 0x0501, 0x0806, 0x0601],
    .SCTExtension,
    .KeyShareExtension [⟨GREASE_PLACEHOLDER, [0]⟩, ⟨X25519, []⟩],
    .PSKKeyExchangeModesExtension [PskModeDHE],
    .SupportedVersionsExtension [GREASE_PLACEHOLDER, VersionTLS13, VersionTLS12],
    .UtlsCompressCertExtension [CertCompressionBrotli],
    .ApplicationSettingsExtension ["h2"],
    .UtlsGREASEExtension,
    .UtlsPaddingExtension .BoringPaddingStyle]
  GetSessionID := none

/-! ## The transport -/

/-- The errors `uTransport.RoundTrip` returns, one constructor per `fmt.Errorf` site of the
function; `library` is an error handed through from a library round trip or response
read. -/
inductive TransportError where
  | unsupportedScheme (scheme : String)
  | proxyLookup (cause : String)
  | proxyNotConfigured
  | proxyDial (cause : String)
  | connectSend (cause : String)
  | connectRead (cause : String)
  | connectStatus (status : String)
  | applyPreset (cause : String)
  | handshake (cause : String)
  | newClientConn (cause : String)
  | requestWrite (cause : String)
  | unsupportedALPN (alpn : String)
  | library (cause : String)
  deriving DecidableEq, Repr

/-- The text of a transport error, as the format strings of `RoundTrip` build it. -/
def TransportError.message : TransportError → String
  | .unsupportedScheme scheme => "unsupported scheme: " ++ scheme
  | .proxyLookup cause => "failed to get proxy URL: " ++ cause
  | .proxyNotConfigured => "proxy URL is not configured"
  | .proxyDial cause => "failed to connect to proxy: " ++ cause
  | .connectSend cause => "failed to send CONNECT request: " ++ cause
  | .connectRead cause => "failed to read proxy response: " ++ cause
  | .connectStatus status => "proxy CONNECT failed with status: " ++ status
  | .applyPreset cause => "uConn.ApplyPreset() error: " ++ cause
  | .handshake cause => "TLS handshake failed: " ++ cause
  | .newClientConn cause => "http2.Transport.NewClientConn() error: " ++ cause
  | .requestWrite cause => "http.Request.Write() error: " ++ cause
  | .unsupportedALPN alpn => "unsupported ALPN: " ++ alpn
  | .library cause => cause

/-- What a call of `RoundTrip` yields: a response, an error, or a run-time panic. -/
inductive RoundTripResult where
  | response (r : Response)
  | error (e : TransportError)
  | panic
  deriving DecidableEq, Repr

/-- The answers of the network and of the TLS and HTTP libraries during one round trip. -/
structure Net where
  /-- Answer of `u.tr1.RoundTrip(req)`, the standard transport. -/
  tr1RoundTrip : Request → IOResult Response
  /-- Answer of `net.DialTimeout("tcp", host, 10s)`. -/
  dial : String → IOResult Unit
  /-- Answer of `conn.Write` for the CONNECT request. -/
  connWrite : String → IOResult Unit
  /-- Answer of `http.ReadResponse` on the proxy connection. -/
  readProxyResponse : IOResult Response
  /-- Answer of `tlsConn.ApplyPreset`. -/
  applyPreset : ClientHelloSpec → IOResult Unit
  /-- Answer of `tlsConn.Handshake()`; on success the negotiated protocol of the
  connection state. -/
  handshake : IOResult String
  /-- Answer of `u.tr2.NewClientConn(tlsConn)`. -/
  newClientConn : IOResult Unit
  /-- Answer of the HTTP/2 client connection's `RoundTrip`. -/
  h2RoundTrip : Request → IOResult Response
  /-- Answer of `req.Write(tlsConn)`. -/
  requestWrite : Request → IOResult Unit
  /-- Answer of `http.ReadResponse` on the TLS connection. -/
  readResponse : IOResult Response

/-- The library calls `RoundTrip` makes on the network side, with their arguments. -/
inductive NetCall where
  | tr1RoundTrip (req : Request)
  | dial (host : String)
  | connWrite (data : String)
  | readProxyResponse
  | connClose
  | UClient (serverName : String)
  | ApplyPreset (spec : ClientHelloSpec)
  | Handshake
  | tlsClose
  | NewClientConn
  | h2RoundTrip (req : Request)
  | requestWrite (req : Request)
  | readResponse
  deriving DecidableEq, Repr

/-- One run of `RoundTrip`: the result, the request after the call (a pointer in Go, its
protocol fields are written), and the calls made, in order. -/
structure RoundTripRun where
  result : RoundTripResult
  req : Request
  calls : List NetCall
  deriving DecidableEq, Repr

/-- The same run, preceded by earlier calls. -/
def RoundTripRun.after (pre : List NetCall) (r : RoundTripRun) : RoundTripRun :=
  ⟨r.result, r.req, pre ++ r.calls⟩

/-- A library answer as the result of `RoundTrip`. -/
def IOResult.toResult : IOResult Response → RoundTripResult
  | .ok r => .response r
  | .err msg => .error (.library msg)

/-- The CONNECT request text: `dest` is the host, with `:443` added when the URL has no
port. -/
def connectRequest (u : URL) : String :=
  let dest := if u.Port = "" then u.Host ++ ":443" else u.Host
  "CONNECT " ++ dest ++ " HTTP/1.1\r\nHost: " ++ u.Host ++ "\r\n\r\n"

/-- The `switch alpn` at the end of `RoundTrip`. -/
def dispatchALPN (net : Net) (req : Request) (alpn : String) : RoundTripRun :=
  if alpn = "h2" then
    let req2 : Request := ⟨req.Method, req.URL, req.Header, "HTTP/2.0", 2, 0⟩
    match net.newClientConn with
    | .ok _ => ⟨(net.h2RoundTrip req2).toResult, req2, [.NewClientConn, .h2RoundTrip req2]⟩
    | .err cause => ⟨.error (.newClientConn cause), req2, [.NewClientConn]⟩
  else if alpn = "http/1.1" ∨ alpn = "" then
    let req1 : Request := ⟨req.Method, req.URL, req.Header, "HTTP/1.1", 1, 1⟩
    match net.requestWrite req1 with
    | .ok _ => ⟨net.readResponse.toResult, req1, [.requestWrite req1, .readResponse]⟩
    | .err cause => ⟨.error (.requestWrite cause), req1, [.requestWrite req1]⟩
  else
    ⟨.error (.unsupportedALPN alpn), req, []⟩

/-- The part of `RoundTrip` after the proxy has answered CONNECT with 200: the TLS client on
the tunnel, the preset, the handshake, the dispatch. -/
def RoundTrip.secure (u : uTransport) (net : Net) (req : Request) : RoundTripRun :=
  match net.applyPreset (newSpec u) with
  | .err cause =>
    ⟨.error (.applyPreset cause), req,
      [.UClient req.URL.Hostname, .ApplyPreset (newSpec u), .tlsClose]⟩
  | .ok _ =>
    match net.handshake with
    | .err cause =>
      ⟨.error (.handshake cause), req,
        [.UClient req.URL.Hostname, .ApplyPreset (newSpec u), .Handshake, .tlsClose]⟩
    | .ok alpn =>
      (dispatchALPN net req alpn).after
        [.UClient req.URL.Hostname, .ApplyPreset (newSpec u), .Handshake]

/-- The part of `RoundTrip` from the dial to the proxy to the check of its answer. -/
def RoundTrip.tunnel (u : uTransport) (net : Net) (req : Request) (proxyURL : URL) :
    RoundTripRun :=
  match net.dial proxyURL.Host with
  | .err cause => ⟨.error (.proxyDial cause), req, [.dial proxyURL.Host]⟩
  | .ok _ =>
    match net.connWrite (connectRequest req.URL) with
    | .err cause =>
      ⟨.error (.connectSend cause), req,
        [.dial proxyURL.Host, .connWrite (connectRequest req.URL), .connClose]⟩
    | .ok _ =>
      match net.readProxyResponse with
      | .err cause =>
        ⟨.error (.connectRead cause), req,
          [.dial proxyURL.Host, .connWrite (connectRequest req.URL), .readProxyResponse,
            .connClose]⟩
      | .ok resp =>
        if resp.StatusCode ≠ 200 then
          ⟨.error (.connectStatus resp.Status), req,
            [.dial proxyURL.Host, .connWrite (connectRequest req.URL), .readProxyResponse,
              .connClose]⟩
        else
          (RoundTrip.secure u net req).after
            [.dial proxyURL.Host, .connWrite (connectRequest req.URL), .readProxyResponse]

/-- `uTransport.RoundTrip`. A nil `Proxy` function value is called like any other: the Go
run time panics. -/
def RoundTrip (u : uTransport) (net : Net) (req : Request) : RoundTripRun :=
  if req.URL.Scheme = "http" then
    ⟨(net.tr1RoundTrip req).toResult, req, [.tr1RoundTrip req]⟩
  else if req.URL.Scheme ≠ "https" then
    ⟨.error (.unsupportedScheme req.URL.Scheme), req, []⟩
  else
    match u.tr1.Proxy with
    | none => ⟨.panic, req, []⟩
    | some proxy =>
      match proxy req with
      | .err cause => ⟨.error (.proxyLookup cause), req, []⟩
      | .ok none => ⟨.error .proxyNotConfigured, req, []⟩
      | .ok (some proxyURL) => RoundTrip.tunnel u net req proxyURL

/-! ## The client -/

/-- `Client`. `client` is the transport of its `http.Client`; `defaultHeaders` is a Go map,
its entries listed in iteration order; `retryDelay` is a `time.Duration`, in
nanoseconds. -/
structure Client where
  client : uTransport
  proxy : String
  defaultHeaders : List (String × String)
  maxRetries : Int
  retryDelay : Int

/-- Go's `http.ProxyURL`: a proxy function that always answers `fixedURL`. -/
def ProxyURL (fixedURL : Option URL) : Request → IOResult (Option URL) :=
  fun _ => .ok fixedURL

/-- A value as a signed 64-bit integer, wrapping. -/
def wrapInt64 (x : Int) : Int :=
  (x + 2 ^ 63) % 2 ^ 64 - 2 ^ 63

/-- `NewClient`. `urlParse` is `url.Parse`, `none` for the nil URL it returns with an
error (the error is dropped in the source). -/
def NewClient (urlParse : String → Option URL) (proxyURL : String) (maxRetries : Int)
    (retryDelay : Int) : Client where
  client := ⟨⟨if proxyURL ≠ "" then some (ProxyURL (urlParse proxyURL)) else none⟩⟩
  proxy := proxyURL
  defaultHeaders := [
    ("accept", "text/html,application/xhtml+xml,application/xml;q=0.9,image/avif,image/webp,image/apng,*/*;q=0.8,application/signed-exchange;v=b3;q=0.7"),
    ("accept-language", "en,zh-CN;q=0.9,zh;q=0.8"),
    ("user-agent", "Mozilla/5.0 (Macintosh; Intel Mac OS X 10_15_7) AppleWebKit/537.36 (KHTML, like Gecko) Chrome/112.0.0.0 Safari/537.36")]
  maxRetries := maxRetries
  retryDelay := wrapInt64 (retryDelay * 1000000000)

/-- The `for k, v := range m` loops of `setHeaders`: `req.Header.Set(k, v)` for each
entry. -/
def setAll (canon : String → String) (req : Request) (m : List (String × String)) :
    Request :=
  m.foldl (fun r kv =>
    ⟨r.Method, r.URL, r.Header.Set canon kv.1 kv.2, r.Proto, r.ProtoMajor, r.ProtoMinor⟩) req

/-- `Client.setHeaders`. -/
def setHeaders (canon : String → String) (c : Client) (req : Request)
    (opts : Option RequestOption) : Request :=
  match opts with
  | some ⟨some headers⟩ => setAll canon req headers
  | _ => setAll canon req c.defaultHeaders

/-- `http.Client.Do` with the client's transport: the request goes to `RoundTrip` once and
its result comes back. Redirect following, a library feature, is outside the model. -/
def Client.Do (c : Client) (net : Net) (req : Request) : RoundTripResult :=
  (RoundTrip c.client net req).result

/-! ## The download loop -/

/-- The errors `Client.DownloadFile` returns, one constructor per `fmt.Errorf` site. -/
inductive DownloadError where
  | createDirectory (cause : String)
  | createRequest
  | sendRequest (attempts : Int) (cause : TransportError)
  | unexpectedStatus (attempts : Int) (code : Int)
  | invalidContentLength (contentLength : Int)
  | openFile (cause : String)
  | writeFile (cause : String)
  | readResponse (cause : String)
  | exhausted (attempts : Int)
  deriving DecidableEq, Repr

/-- How a call of `DownloadFile` ends: a nil error, an error, or a panic raised in the
transport. -/
inductive Outcome where
  | success
  | failure (e : DownloadError)
  | panicked
  deriving DecidableEq, Repr

/-- The observable steps of `DownloadFile`, with their arguments: the sleep before a
retry, the request handed to `c.client.Do`, the opening of the destination file (with or
without `O_APPEND`), each `file.Write`, and the four calls on the progress tracker. The
diagnostic prints and the deferred `Close` calls, which run when the function returns, are
left out. -/
inductive Event where
  | Sleep (d : Int)
  | Do (req : Request)
  | OpenFile (append : Bool)
  | Write (data : List Byte)
  | NewDownloadProgress (totalSize : Int) (startPos : Int)
  | Update (n : Int)
  | Success
  | Fail
  deriving DecidableEq, Repr

/-- The answers of the environment during one call of `DownloadFile`. Attempts are numbered
from 0, as in the source; the `Write` calls of an attempt are numbered from 0 too. -/
structure World where
  /-- Answer of `os.MkdirAll` for the directory of the destination. -/
  MkdirAll : IOResult Unit
  /-- The URL parsing inside `http.NewRequest`, `none` when it reports an error. -/
  parseURL : String → Option URL
  /-- Go's `textproto.CanonicalMIMEHeaderKey`. -/
  canon : String → String
  /-- The network during attempt `k`. -/
  net : Nat → Net
  /-- Answer of `os.OpenFile` in attempt `k`. -/
  OpenFile : Nat → IOResult Unit
  /-- Answer of the `j`-th `file.Write` of attempt `k`: `none` when all bytes are written,
  `some (m, cause)` for an error after `m` bytes. -/
  Write : Nat → Nat → Option (Nat × String)

/-- `http.NewRequest(method, url, nil)`: a request with no header entry and the protocol
fields the library sets, or `none` for an error. -/
def NewRequest (parseURL : String → Option URL) (method url : String) : Option Request :=
  (parseURL url).map fun u => ⟨method, u, ⟨[]⟩, "HTTP/1.1", 1, 1⟩

/-- An open destination file: whether `O_APPEND` was given, and the file offset. -/
structure FileHandle where
  append : Bool
  offset : Nat
  deriving DecidableEq, Repr

/-- The effect of a successful `file.Write(data)` on the file content: with `O_APPEND` the
bytes go to the end of the file, without it they replace the bytes at the offset. -/
def FileHandle.Write (h : FileHandle) (content data : List Byte) :
    List Byte × FileHandle :=
  if h.append then
    (content ++ data, ⟨true, content.length + data.length⟩)
  else
    (content.take h.offset ++ data ++ content.drop (h.offset + data.length),
      ⟨false, h.offset + data.length⟩)

/-- How the streaming `for` is left: by a `return`, or by `break` with the value of
`downloadSuccess`. -/
inductive LoopExit where
  | returned (o : Outcome)
  | broke (downloadSuccess : Bool)
  deriving DecidableEq, Repr

/-- What follows the streaming `for`: a `return` inside it ends the call with its value;
after a `break` comes `if downloadSuccess { return nil }`, and else the next attempt. -/
def LoopExit.toStep : LoopExit → Option Outcome
  | .returned o => some o
  | .broke downloadSuccess => if downloadSuccess then some .success else none

/-- The state after the `if n > 0` block of one iteration of the streaming `for`: the loop
is left, or the iteration goes on to look at the read error. -/
inductive WriteStep where
  | stop (exit : LoopExit) (content : List Byte) (events : List Event)
  | go (writes : Nat) (h : FileHandle) (content : List Byte) (events : List Event)

/-- The `if n > 0` block: write the bytes just read and report them to the progress
tracker; a write error ends the attempt. `writes` counts the `Write` calls of the attempt
so far. -/
def writeStep (w : World) (c : Client) (attempt : Nat) (data : List Byte) (writes : Nat)
    (h : FileHandle) (content : List Byte) : WriteStep :=
  if data.length > 0 then
    match w.Write attempt writes with
    | some (m, cause) =>
      .stop
        (if (attempt : Int) < c.maxRetries - 1 then .broke false
          else .returned (.failure (.writeFile cause)))
        (h.Write content (data.take m)).1 [.Write data, .Fail]
    | none =>
      .go (writes + 1) (h.Write content data).2 (h.Write content data).1
        [.Write data, .Update data.length]
  else
    .go writes h content []

/-- One run of the streaming `for`: how it was left, the file content and the steps. -/
structure StreamRun where
  exit : LoopExit
  content : List Byte
  events : List Event
  deriving DecidableEq, Repr

/-- The streaming `for` of `DownloadFile`: read, write, then look at the read error. -/
def readLoop (w : World) (c : Client) (attempt : Nat) :
    Body → Nat → FileHandle → List Byte → StreamRun
  | .eof data, writes, h, content =>
    match writeStep w c attempt data writes h content with
    | .stop exit content1 events => ⟨exit, content1, events⟩
    | .go _ _ content1 events => ⟨.returned .success, content1, events ++ [.Success]⟩
  | .fail data cause, writes, h, content =>
    match writeStep w c attempt data writes h content with
    | .stop exit content1 events => ⟨exit, content1, events⟩
    | .go _ _ content1 events =>
      ⟨if (attempt : Int) < c.maxRetries - 1 then .broke false
        else .returned (.failure (.readResponse cause)), content1, events ++ [.Fail]⟩
  | .more data rest, writes, h, content =>
    match writeStep w c attempt data writes h content with
    | .stop exit content1 events => ⟨exit, content1, events⟩
    | .go writes1 h1 content1 events =>
      let r := readLoop w c attempt rest writes1 h1 content1
      ⟨r.exit, r.content, events ++ r.events⟩

/-- One iteration of the attempt loop: `step` is `some o` when the iteration returns `o`
from `DownloadFile`, `none` when the loop goes on to the next attempt; `file` is the
destination file afterwards (`none`: it does not exist). -/
structure AttemptRun where
  step : Option Outcome
  file : Option (List Byte)
  events : List Event
  deriving DecidableEq, Repr

/-- The request of an attempt: `http.NewRequest`, `setHeaders`, and the `Range` header when
the destination file already holds `startPos > 0` bytes. -/
def attemptRequest (w : World) (c : Client) (url : String) (opts : Option RequestOption)
    (startPos : Nat) : Option Request :=
  (NewRequest w.parseURL "GET" url).map fun req0 =>
    let req := setHeaders w.canon c req0 opts
    if startPos > 0 then
      ⟨req.Method, req.URL, req.Header.Set w.canon "Range" ("bytes=" ++ toString startPos ++ "-"),
        req.Proto, req.ProtoMajor, req.ProtoMinor⟩
    else req

/-- On a failed attempt: `continue` while attempts remain, else return the error. -/
def retryOr (c : Client) (attempt : Nat) (e : DownloadError) : Option Outcome :=
  if (attempt : Int) < c.maxRetries - 1 then none else some (.failure e)

/-- The head of the loop body: `time.Sleep(c.retryDelay)` on every attempt but the first. -/
def sleepBefore (c : Client) (attempt : Nat) : List Event :=
  if attempt > 0 then [.Sleep c.retryDelay] else []

/-- `os.Stat(filepath)` and `fi.Size()`: the size of the destination file, and 0 when
`Stat` reports an error because there is none. -/
def statSize : Option (List Byte) → Nat
  | some content => content.length
  | none => 0

/-- The streaming phase of an attempt, entered with an accepted response: the content
length check, the opening of the file, the progress tracker, the streaming `for` and the
test of `downloadSuccess` after it. `pre` holds the steps of the attempt so far. -/
def streamTo (w : World) (c : Client) (attempt : Nat) (file : Option (List Byte))
    (resp : Response) (startPos : Nat) (pre : List Event) : AttemptRun :=
  if resp.ContentLength ≤ 0 then
    ⟨retryOr c attempt (.invalidContentLength resp.ContentLength), file, pre⟩
  else
    let totalSize : Int := startPos + resp.ContentLength
    let append : Bool := decide (startPos > 0)
    match w.OpenFile attempt with
    | .err cause => ⟨some (.failure (.openFile cause)), file, pre ++ [.OpenFile append]⟩
    | .ok _ =>
      let r := readLoop w c attempt resp.Body 0 ⟨append, 0⟩ (file.getD [])
      ⟨r.exit.toStep, some r.content,
        pre ++ [.OpenFile append, .NewDownloadProgress totalSize startPos] ++ r.events⟩

/-- The body of the attempt loop of `DownloadFile` for one value of `attempt`. -/
def attemptOnce (w : World) (c : Client) (url : String) (opts : Option RequestOption)
    (attempt : Nat) (file : Option (List Byte)) : AttemptRun :=
  match attemptRequest w c url opts (statSize file) with
  | none => ⟨some (.failure .createRequest), file, sleepBefore c attempt⟩
  | some req =>
    match c.Do (w.net attempt) req with
    | .panic => ⟨some .panicked, file, sleepBefore c attempt ++ [.Do req]⟩
    | .error e =>
      ⟨retryOr c attempt (.sendRequest c.maxRetries e), file,
        sleepBefore c attempt ++ [.Do req]⟩
    | .response resp =>
      if resp.StatusCode = 200 then
        streamTo w c attempt file resp 0 (sleepBefore c attempt ++ [.Do req])
      else if resp.StatusCode = 206 then
        streamTo w c attempt file resp (statSize file) (sleepBefore c attempt ++ [.Do req])
      else if resp.StatusCode = 416 then
        ⟨some .success, file, sleepBefore c attempt ++ [.Do req]⟩
      else
        ⟨retryOr c attempt (.unexpectedStatus c.maxRetries resp.StatusCode), file,
          sleepBefore c attempt ++ [.Do req]⟩

/-- One run of `DownloadFile`: the returned error (or panic), the destination file
afterwards, and the steps taken, in order. -/
structure Run where
  outcome : Outcome
  file : Option (List Byte)
  events : List Event
  deriving DecidableEq, Repr

/-- The attempt loop `for attempt = 0; attempt < c.maxRetries; attempt++`. The first
argument is the number of iterations the loop condition still admits, `c.maxRetries -
attempt`; when it is 0 the loop is over and the final error is returned. -/
def DownloadFile.loop (w : World) (c : Client) (url : String) (opts : Option RequestOption) :
    Nat → Nat → Option (List Byte) → Run
  | 0, _, file => ⟨.failure (.exhausted c.maxRetries), file, []⟩
  | remaining + 1, attempt, file =>
    let t := attemptOnce w c url opts attempt file
    match t.step with
    | some o => ⟨o, t.file, t.events⟩
    | none =>
      let rest := DownloadFile.loop w c url opts remaining (attempt + 1) t.file
      ⟨rest.outcome, rest.file, t.events ++ rest.events⟩

/-- `Client.DownloadFile(url, filepath, opts)`, run in world `w` with the destination file
at `filepath` holding `file` (`none`: no such file). -/
def DownloadFile (w : World) (c : Client) (url : String) (opts : Option RequestOption)
    (file : Option (List Byte)) : Run :=
  match w.MkdirAll with
  | .err cause => ⟨.failure (.createDirectory cause), file, []⟩
  | .ok _ => DownloadFile.loop w c url opts c.maxRetries.toNat 0 file

/-! ## Vocabulary of the statements -/

/-- The value of the last entry of `m`, in iteration order, whose key has the canonical
form `name`. -/
def lastValue (canon : String → String) : List (String × String) → String → Option String
  | [], _ => none
  | kv :: rest, name =>
    match lastValue canon rest name with
    | some v => some v
    | none => if canon kv.1 = name then some kv.2 else none

/-- Whether a step is a request handed to the transport. -/
def Event.isDo : Event → Bool
  | .Do _ => true
  | _ => false

/-- Whether a step is a retry sleep. -/
def Event.isSleep : Event → Bool
  | .Sleep _ => true
  | _ => false

/-- The number of requests among the steps of a run. -/
def requestsSent (events : List Event) : Nat :=
  events.countP Event.isDo

/-- The number of retry sleeps among the steps of a run. -/
def sleepsTaken (events : List Event) : Nat :=
  events.countP Event.isSleep

/-- The steps of a run in which every attempt sends `req` and fails in the transport. -/
def failingSteps (c : Client) (req : Request) (n : Nat) : List Event :=
  .Do req :: (List.replicate (n - 1) [Event.Sleep c.retryDelay, Event.Do req]).flatten

/-- The error text of the last read of a body that does not end in `io.EOF`. -/
def Body.cause : Body → String
  | .eof _ => ""
  | .fail _ msg => msg
  | .more _ rest => rest.cause

/-- The steps one read takes when its bytes are written without error: nothing for an
empty read, else the write and the progress update. -/
def chunkSteps (data : List Byte) : List Event :=
  if data.length > 0 then [.Write data, .Update data.length] else []

/-- The steps of the streaming `for` over a body when no write fails. -/
def Body.steps : Body → List Event
  | .eof data => chunkSteps data ++ [.Success]
  | .fail data _ => chunkSteps data ++ [.Fail]
  | .more data rest => chunkSteps data ++ rest.steps

/-- How the streaming `for` is left when no write fails. -/
def Body.exit (c : Client) (attempt : Nat) (body : Body) : LoopExit :=
  if body.endsEOF then .returned .success
  else if (attempt : Int) < c.maxRetries - 1 then .broke false
  else .returned (.failure (.readResponse body.cause))

/-- The bytes handed to `file.Write` during a run, in order. -/
def writtenBytes : List Event → List Byte
  | [] => []
  | .Write data :: rest => data ++ writtenBytes rest
  | _ :: rest => writtenBytes rest

/-! ## Inputs of the examples -/

/-- A URL parser for the examples: four addresses, everything else is malformed. -/
def exampleParse (s : String) : Option URL :=
  if s = "http://127.0.0.1:7890" then some ⟨"http", "127.0.0.1:7890", "7890", "127.0.0.1"⟩
  else if s = "http://example.com/f" then some ⟨"http", "example.com", "", "example.com"⟩
  else if s = "https://example.com/f" then some ⟨"https", "example.com", "", "example.com"⟩
  else if s = "ftp://example.com/f" then some ⟨"ftp", "example.com", "", "example.com"⟩
  else none

/-- A network on which every library call fails. -/
def deadNet : Net where
  tr1RoundTrip := fun _ => .err "connection refused"
  dial := fun _ => .err "connection refused"
  connWrite := fun _ => .err "broken pipe"
  readProxyResponse := .err "unexpected EOF"
  applyPreset := fun _ => .err "preset"
  handshake := .err "handshake"
  newClientConn := .err "h2"
  h2RoundTrip := fun _ => .err "h2"
  requestWrite := fun _ => .err "broken pipe"
  readResponse := .err "unexpected EOF"

/-- A network whose standard transport answers every plain-HTTP request with `resp`. -/
def plainNet (resp : Response) : Net where
  tr1RoundTrip := fun _ => .ok resp
  dial := fun _ => .err "connection refused"
  connWrite := fun _ => .err "broken pipe"
  readProxyResponse := .err "unexpected EOF"
  applyPreset := fun _ => .err "preset"
  handshake := .err "handshake"
  newClientConn := .err "h2"
  h2RoundTrip := fun _ => .err "h2"
  requestWrite := fun _ => .err "broken pipe"
  readResponse := .err "unexpected EOF"

/-- A network with a reachable proxy that answers CONNECT with `connect`, a TLS peer that
negotiates `alpn`, and a server that answers `resp` on either protocol. -/
def tunnelNet (connect : Response) (alpn : String) (resp : Response) : Net where
  tr1RoundTrip := fun _ => .err "connection refused"
  dial := fun _ => .ok ()
  connWrite := fun _ => .ok ()
  readProxyResponse := .ok connect
  applyPreset := fun _ => .ok ()
  handshake := .ok alpn
  newClientConn := .ok ()
  h2RoundTrip := fun _ => .ok resp
  requestWrite := fun _ => .ok ()
  readResponse := .ok resp

/-- A world with a working file system, the identity as header canonicalisation, and the
given network for each attempt. -/
def exampleWorld (net : Nat → Net) : World where
  MkdirAll := .ok ()
  parseURL := exampleParse
  canon := id
  net := net
  OpenFile := fun _ => .ok ()
  Write := fun _ _ => none

/-! ## Headers -/

theorem lookup_filter_ne (name key : String) (hne : key ≠ name)
    (l : List (String × List String)) :
    (l.filter (fun e => e.1 != key)).lookup name = l.lookup name := by
  induction l with
  | nil => rfl
  | cons e rest ih =>
    obtain ⟨a, b⟩ := e
    rw [List.filter_cons]
    by_cases h : a = key
    · have hn : (name == a) = false := by
        simp only [beq_eq_false_iff_ne, ne_eq]
        intro hc
        exact hne (by rw [← h, ← hc])
      simp only [h, bne_self_eq_false, Bool.false_eq_true, if_false, List.lookup]
      rw [← h, hn]
      simpa [h] using ih
    · have hk : (a != key) = true := by simpa using h
      simp only [hk, if_true, List.lookup]
      cases hab : (name == a) with
      | true => rfl
      | false => simpa using ih

theorem values_Set (canon : String → String) (h : Header) (key value name : String) :
    (h.Set canon key value).values name =
      if canon key = name then some [value] else h.values name := by
  by_cases hk : canon key = name
  · subst hk
    simp [Header.Set, Header.values, List.lookup]
  · have hn : (name == canon key) = false := by
      simp only [beq_eq_false_iff_ne, ne_eq]
      exact fun hc => hk hc.symm
    simp only [Header.Set, Header.values, List.lookup, hn, hk, if_false]
    exact lookup_filter_ne name (canon key) hk h.entries

theorem setAll_values (canon : String → String) (name : String) :
    ∀ (m : List (String × String)) (req : Request),
      (setAll canon req m).Header.values name =
        match lastValue canon m name with
        | some v => some [v]
        | none => req.Header.values name := by
  intro m
  induction m with
  | nil => intro req; rfl
  | cons kv rest ih =>
    intro req
    have hstep : setAll canon req (kv :: rest) =
        setAll canon ⟨req.Method, req.URL, req.Header.Set canon kv.1 kv.2, req.Proto,
          req.ProtoMajor, req.ProtoMinor⟩ rest := rfl
    rw [hstep, ih]
    simp only [lastValue]
    cases hl : lastValue canon rest name with
    | some v => rfl
    | none =>
      simp only [values_Set]
      by_cases hk : canon kv.1 = name <;> simp [hk]

theorem lastValue_mem (canon : String → String) (name v : String) :
    ∀ m : List (String × String), lastValue canon m name = some v →
      ∃ kv ∈ m, canon kv.1 = name ∧ kv.2 = v := by
  intro m
  induction m with
  | nil => intro h; simp [lastValue] at h
  | cons kv rest ih =>
    intro h
    simp only [lastValue] at h
    cases hl : lastValue canon rest name with
    | some v1 =>
      rw [hl] at h
      obtain ⟨e, he, h1, h2⟩ := ih (by rw [hl]; exact h)
      exact ⟨e, List.mem_cons_of_mem _ he, h1, h2⟩
    | none =>
      rw [hl] at h
      by_cases hk : canon kv.1 = name
      · simp [hk] at h
        exact ⟨kv, List.mem_cons_self _ _, hk, h⟩
      · simp [hk] at h

theorem lastValue_none (canon : String → String) (name : String) :
    ∀ m : List (String × String), (∀ kv ∈ m, canon kv.1 ≠ name) →
      lastValue canon m name = none := by
  intro m
  induction m with
  | nil => intro _; rfl
  | cons kv rest ih =>
    intro h
    simp only [lastValue]
    rw [ih (fun e he => h e (List.mem_cons_of_mem _ he))]
    simp [h kv (List.mem_cons_self _ _)]

theorem lastValue_nodup (canon : String → String) :
    ∀ m : List (String × String), (m.map fun kv => canon kv.1).Nodup →
      ∀ kv ∈ m, lastValue canon m (canon kv.1) = some kv.2 := by
  intro m
  induction m with
  | nil => intro _ kv h; simp at h
  | cons e rest ih =>
    intro hnd kv hkv
    simp only [List.map_cons, List.nodup_cons, List.mem_map, not_exists, not_and] at hnd
    simp only [lastValue]
    rcases List.mem_cons.1 hkv with h | h
    · subst h
      rw [lastValue_none canon (canon kv.1) rest (fun x hx => hnd.1 x hx)]
      simp
    · rw [ih hnd.2 kv h]

/-! ## The attempt loop -/

theorem attemptOnce_error (w : World) (c : Client) (url : String)
    (opts : Option RequestOption) (attempt : Nat) (file : Option (List Byte))
    (req : Request) (e : TransportError)
    (hreq : attemptRequest w c url opts (statSize file) = some req)
    (hdo : c.Do (w.net attempt) req = .error e) :
    attemptOnce w c url opts attempt file =
      ⟨retryOr c attempt (.sendRequest c.maxRetries e), file,
        sleepBefore c attempt ++ [.Do req]⟩ := by
  simp [attemptOnce, hreq, hdo]

theorem attemptOnce_416 (w : World) (c : Client) (url : String)
    (opts : Option RequestOption) (attempt : Nat) (file : Option (List Byte))
    (req : Request) (resp : Response)
    (hreq : attemptRequest w c url opts (statSize file) = some req)
    (hdo : c.Do (w.net attempt) req = .response resp) (h416 : resp.StatusCode = 416) :
    attemptOnce w c url opts attempt file =
      ⟨some .success, file, sleepBefore c attempt ++ [.Do req]⟩ := by
  simp [attemptOnce, hreq, hdo, h416]

theorem retryOr_last (c : Client) (attempt : Nat) (e : DownloadError)
    (h : (attempt : Int) + 1 = c.maxRetries) : retryOr c attempt e = some (.failure e) := by
  have : ¬ ((attempt : Int) < c.maxRetries - 1) := by omega
  simp [retryOr, this]

theorem retryOr_more (c : Client) (attempt : Nat) (e : DownloadError)
    (h : (attempt : Int) + 1 < c.maxRetries) : retryOr c attempt e = none := by
  have : (attempt : Int) < c.maxRetries - 1 := by omega
  simp [retryOr, this]

theorem requestsSent_failingSteps (c : Client) (req : Request) (n : Nat) :
    requestsSent (failingSteps c req (n + 1)) = n + 1 := by
  induction n with
  | zero => rfl
  | succ k ih =>
    simp only [failingSteps, requestsSent, Nat.add_sub_cancel, List.replicate_succ,
      List.flatten_cons, List.countP_cons, List.countP_append] at ih ⊢
    simp only [Event.isDo, Event.isSleep] at ih ⊢
    simp at ih ⊢
    omega

theorem sleepsTaken_failingSteps (c : Client) (req : Request) (n : Nat) :
    sleepsTaken (failingSteps c req (n + 1)) = n := by
  induction n with
  | zero => rfl
  | succ k ih =>
    simp only [failingSteps, sleepsTaken, Nat.add_sub_cancel, List.replicate_succ,
      List.flatten_cons, List.countP_cons, List.countP_append] at ih ⊢
    simp only [Event.isDo, Event.isSleep] at ih ⊢
    simp at ih ⊢
    omega

/-- From a retry on, with the transport failing on `req` in every attempt: each remaining
attempt sleeps and sends `req`, and the last one returns its error. -/
theorem loop_all_errors (w : World) (c : Client) (url : String)
    (opts : Option RequestOption) (file : Option (List Byte)) (req : Request)
    (hreq : attemptRequest w c url opts (statSize file) = some req)
    (hfail : ∀ k, ∃ e, c.Do (w.net k) req = .error e) :
    ∀ (remaining attempt : Nat), 0 < attempt →
      (attempt : Int) + (remaining + 1 : Nat) = c.maxRetries →
      ∃ e, c.Do (w.net (attempt + remaining)) req = .error e ∧
        DownloadFile.loop w c url opts (remaining + 1) attempt file =
          ⟨.failure (.sendRequest c.maxRetries e), file,
            (List.replicate (remaining + 1) [Event.Sleep c.retryDelay, Event.Do req]).flatten⟩ := by
  intro remaining
  induction remaining with
  | zero =>
    intro attempt hpos hsum
    obtain ⟨e, he⟩ := hfail attempt
    refine ⟨e, he, ?_⟩
    have hs : sleepBefore c attempt = [.Sleep c.retryDelay] := by simp [sleepBefore, hpos]
    simp only [DownloadFile.loop, attemptOnce_error w c url opts attempt file req e hreq he,
      retryOr_last c attempt _ (by push_cast at hsum; omega), hs]
    rfl
  | succ k ih =>
    intro attempt hpos hsum
    obtain ⟨e0, he0⟩ := hfail attempt
    obtain ⟨e, he, hrest⟩ := ih (attempt + 1) (Nat.succ_pos _) (by push_cast at hsum ⊢; omega)
    refine ⟨e, by rw [← he]; congr 2; omega, ?_⟩
    have hs : sleepBefore c attempt = [.Sleep c.retryDelay] := by simp [sleepBefore, hpos]
    rw [DownloadFile.loop]
    simp only [attemptOnce_error w c url opts attempt file req e0 hreq he0,
      retryOr_more c attempt _ (by push_cast at hsum; omega), hs, hrest]
    rfl

/-- A whole call with the transport failing on `req` in every attempt. -/
theorem DownloadFile_all_errors (w : World) (c : Client) (url : String)
    (opts : Option RequestOption) (file : Option (List Byte)) (req : Request)
    (hN : 1 ≤ c.maxRetries) (hmk : w.MkdirAll = .ok ())
    (hreq : attemptRequest w c url opts (statSize file) = some req)
    (hfail : ∀ k, ∃ e, c.Do (w.net k) req = .error e) :
    ∃ e, c.Do (w.net (c.maxRetries.toNat - 1)) req = .error e ∧
      DownloadFile w c url opts file =
        ⟨.failure (.sendRequest c.maxRetries e), file,
          failingSteps c req c.maxRetries.toNat⟩ := by
  obtain ⟨n, hn⟩ : ∃ n : Nat, c.maxRetries.toNat = n + 1 :=
    ⟨c.maxRetries.toNat - 1, by omega⟩
  have hmax : c.maxRetries = ((n + 1 : Nat) : Int) := by omega
  simp only [DownloadFile, hmk, hn, failingSteps, Nat.add_sub_cancel]
  obtain ⟨e0, he0⟩ := hfail 0
  have hs : sleepBefore c 0 = [] := rfl
  cases n with
  | zero =>
    refine ⟨e0, he0, ?_⟩
    simp only [DownloadFile.loop, attemptOnce_error w c url opts 0 file req e0 hreq he0,
      retryOr_last c 0 _ (by rw [hmax]; rfl), hs]
    rfl
  | succ k =>
    obtain ⟨e, he, hrest⟩ := loop_all_errors w c url opts file req hreq hfail k 1
      (Nat.succ_pos _) (by rw [hmax]; push_cast; omega)
    refine ⟨e, by rw [← he]; congr 2; omega, ?_⟩
    rw [DownloadFile.loop]
    simp only [attemptOnce_error w c url opts 0 file req e0 hreq he0,
      retryOr_more c 0 _ (by rw [hmax]; push_cast; omega), hs, hrest]
    rfl

/-! ## The streaming loop -/

theorem writeStep_ok (w : World) (c : Client) (attempt : Nat) (data : List Byte)
    (writes : Nat) (h : FileHandle) (content : List Byte)
    (hw : ∀ j, w.Write attempt j = none) :
    writeStep w c attempt data writes h content =
      if data.length > 0 then
        .go (writes + 1) (h.Write content data).2 (h.Write content data).1
          [.Write data, .Update data.length]
      else .go writes h content [] := by
  simp [writeStep, hw]

theorem readLoop_append (w : World) (c : Client) (attempt : Nat)
    (hw : ∀ j, w.Write attempt j = none) :
    ∀ (body : Body) (writes off : Nat) (content : List Byte),
      readLoop w c attempt body writes ⟨true, off⟩ content =
        ⟨body.exit c attempt, content ++ body.bytes, body.steps⟩ := by
  intro body
  induction body with
  | eof data =>
    intro writes off content
    by_cases hd : data.length > 0
    · simp [readLoop, writeStep_ok w c attempt data writes _ content hw, hd, Body.exit,
        Body.endsEOF, Body.bytes, Body.steps, chunkSteps, FileHandle.Write]
    · have : data = [] := by
        cases data with
        | nil => rfl
        | cons a l => simp at hd
      subst this
      simp [readLoop, writeStep_ok w c attempt [] writes _ content hw, Body.exit,
        Body.endsEOF, Body.bytes, Body.steps, chunkSteps]
  | fail data msg =>
    intro writes off content
    by_cases hd : data.length > 0
    · simp [readLoop, writeStep_ok w c attempt data writes _ content hw, hd, Body.exit,
        Body.endsEOF, Body.bytes, Body.steps, chunkSteps, FileHandle.Write, Body.cause]
    · have : data = [] := by
        cases data with
        | nil => rfl
        | cons a l => simp at hd
      subst this
      simp [readLoop, writeStep_ok w c attempt [] writes _ content hw, Body.exit,
        Body.endsEOF, Body.bytes, Body.steps, chunkSteps, Body.cause]
  | more data rest ih =>
    intro writes off content
    by_cases hd : data.length > 0
    · simp [readLoop, writeStep_ok w c attempt data writes _ content hw, hd, Body.exit,
        Body.endsEOF, Body.bytes, Body.steps, chunkSteps, FileHandle.Write, Body.cause, ih]
    · have : data = [] := by
        cases data with
        | nil => rfl
        | cons a l => simp at hd
      subst this
      simp [readLoop, writeStep_ok w c attempt [] writes _ content hw, Body.exit,
        Body.endsEOF, Body.bytes, Body.steps, chunkSteps, Body.cause, ih]

theorem overwrite_twice (content d1 d2 : List Byte) (off : Nat) (h : off ≤ content.length) :
    (content.take off ++ d1 ++ content.drop (off + d1.length)).take (off + d1.length) ++ d2 ++
      (content.take off ++ d1 ++ content.drop (off + d1.length)).drop
        (off + d1.length + d2.length) =
    content.take off ++ (d1 ++ d2) ++ content.drop (off + (d1 ++ d2).length) := by
  have hl : (content.take off ++ d1).length = off + d1.length := by
    simp [List.length_take, Nat.min_eq_left h]
  have h1 : (content.take off ++ d1 ++ content.drop (off + d1.length)).take (off + d1.length)
      = content.take off ++ d1 := by
    rw [← hl, List.take_left]
  have h2 : (content.take off ++ d1 ++ content.drop (off + d1.length)).drop
      (off + d1.length + d2.length) = content.drop (off + (d1 ++ d2).length) := by
    have e1 : off + d1.length + d2.length = (content.take off ++ d1).length + d2.length := by
      rw [hl]
    have e2 : off + (d1 ++ d2).length = off + d1.length + d2.length := by
      rw [List.length_append, Nat.add_assoc]
    rw [e2, e1, List.drop_append, List.drop_drop, ← e1]
  rw [h1, h2]
  simp [List.append_assoc]

theorem readLoop_overwrite (w : World) (c : Client) (attempt : Nat)
    (hw : ∀ j, w.Write attempt j = none) :
    ∀ (body : Body) (writes off : Nat) (content : List Byte), off ≤ content.length →
      readLoop w c attempt body writes ⟨false, off⟩ content =
        ⟨body.exit c attempt,
          content.take off ++ body.bytes ++ content.drop (off + body.bytes.length),
          body.steps⟩ := by
  intro body
  induction body with
  | eof data =>
    intro writes off content _
    by_cases hd : data.length > 0
    · simp [readLoop, writeStep_ok w c attempt data writes _ content hw, hd, Body.exit,
        Body.endsEOF, Body.bytes, Body.steps, chunkSteps, FileHandle.Write]
    · have : data = [] := by
        cases data with
        | nil => rfl
        | cons a l => simp at hd
      subst this
      simp [readLoop, writeStep_ok w c attempt [] writes _ content hw, Body.exit,
        Body.endsEOF, Body.bytes, Body.steps, chunkSteps]
  | fail data msg =>
    intro writes off content _
    by_cases hd : data.length > 0
    · simp [readLoop, writeStep_ok w c attempt data writes _ content hw, hd, Body.exit,
        Body.endsEOF, Body.bytes, Body.steps, chunkSteps, FileHandle.Write, Body.cause]
    · have : data = [] := by
        cases data with
        | nil => rfl
        | cons a l => simp at hd
      subst this
      simp [readLoop, writeStep_ok w c attempt [] writes _ content hw, Body.exit,
        Body.endsEOF, Body.bytes, Body.steps, chunkSteps, Body.cause]
  | more data rest ih =>
    intro writes off content hoff
    by_cases hd : data.length > 0
    · have hlen : off + data.length ≤
          (content.take off ++ data ++ content.drop (off + data.length)).length := by
        simp [List.length_take, Nat.min_eq_left hoff]
      simp only [readLoop, writeStep_ok w c attempt data writes _ content hw, hd, if_true,
        FileHandle.Write, Bool.false_eq_true, if_false]
      rw [ih _ _ _ hlen, overwrite_twice content data rest.bytes off hoff]
      simp [Body.exit, Body.endsEOF, Body.bytes, Body.steps, chunkSteps, hd, Body.cause]
    · have : data = [] := by
        cases data with
        | nil => rfl
        | cons a l => simp at hd
      subst this
      simp [readLoop, writeStep_ok w c attempt [] writes _ content hw, Body.exit,
        Body.endsEOF, Body.bytes, Body.steps, chunkSteps, Body.cause, ih _ _ _ hoff]

theorem writtenBytes_append (a b : List Event) :
    writtenBytes (a ++ b) = writtenBytes a ++ writtenBytes b := by
  induction a with
  | nil => rfl
  | cons e rest ih => cases e <;> simp [writtenBytes, ih]

theorem writtenBytes_steps (body : Body) : writtenBytes body.steps = body.bytes := by
  induction body with
  | eof data =>
    by_cases hd : data.length > 0
    · simp [Body.steps, chunkSteps, hd, writtenBytes, Body.bytes]
    · have : data = [] := by
        cases data with
        | nil => rfl
        | cons a l => simp at hd
      subst this
      simp [Body.steps, chunkSteps, writtenBytes, Body.bytes]
  | fail data msg =>
    by_cases hd : data.length > 0
    · simp [Body.steps, chunkSteps, hd, writtenBytes, Body.bytes]
    · have : data = [] := by
        cases data with
        | nil => rfl
        | cons a l => simp at hd
      subst this
      simp [Body.steps, chunkSteps, writtenBytes, Body.bytes]
  | more data rest ih =>
    by_cases hd : data.length > 0
    · simp [Body.steps, chunkSteps, hd, writtenBytes, Body.bytes, ih]
    · have : data = [] := by
        cases data with
        | nil => rfl
        | cons a l => simp at hd
      subst this
      simp [Body.steps, chunkSteps, writtenBytes, Body.bytes, ih]

/-! ## The streaming phase -/

theorem exit_step (c : Client) (attempt : Nat) (body : Body) :
    (body.exit c attempt).toStep =
    if body.endsEOF then some .success
    else retryOr c attempt (.readResponse body.cause) := by
  unfold Body.exit retryOr LoopExit.toStep
  by_cases h1 : body.endsEOF = true
  · simp [h1]
  · by_cases h2 : (attempt : Int) < c.maxRetries - 1 <;> simp [h1, h2]

/-- The streaming phase in append mode, with the file opening and no write failing. -/
theorem streamTo_append (w : World) (c : Client) (attempt : Nat)
    (file : Option (List Byte)) (resp : Response) (startPos : Nat) (pre : List Event)
    (hlen : 0 < resp.ContentLength) (hpos : 0 < startPos)
    (hopen : w.OpenFile attempt = .ok ()) (hw : ∀ j, w.Write attempt j = none) :
    streamTo w c attempt file resp startPos pre =
      ⟨if resp.Body.endsEOF then some .success
        else retryOr c attempt (.readResponse resp.Body.cause),
        some (file.getD [] ++ resp.Body.bytes),
        pre ++ [.OpenFile true, .NewDownloadProgress (startPos + resp.ContentLength) startPos]
          ++ resp.Body.steps⟩ := by
  have h0 : ¬ resp.ContentLength ≤ 0 := by omega
  simp only [streamTo, h0, if_false, hopen, hpos, decide_True,
    readLoop_append w c attempt hw, exit_step]

/-- The streaming phase from offset 0 without `O_APPEND`, with the file opening and no
write failing: the body replaces the first bytes of the file, the rest stays. -/
theorem streamTo_overwrite (w : World) (c : Client) (attempt : Nat)
    (file : Option (List Byte)) (resp : Response) (pre : List Event)
    (hlen : 0 < resp.ContentLength)
    (hopen : w.OpenFile attempt = .ok ()) (hw : ∀ j, w.Write attempt j = none) :
    streamTo w c attempt file resp 0 pre =
      ⟨if resp.Body.endsEOF then some .success
        else retryOr c attempt (.readResponse resp.Body.cause),
        some (resp.Body.bytes ++ (file.getD []).drop resp.Body.bytes.length),
        pre ++ [.OpenFile false, .NewDownloadProgress resp.ContentLength 0]
          ++ resp.Body.steps⟩ := by
  have h0 : ¬ resp.ContentLength ≤ 0 := by omega
  simp only [streamTo, h0, if_false, hopen, Nat.lt_irrefl, gt_iff_lt, decide_False,
    readLoop_overwrite w c attempt hw _ _ 0 _ (Nat.zero_le _), exit_step]
  simp

theorem attemptOnce_206 (w : World) (c : Client) (url : String)
    (opts : Option RequestOption) (attempt : Nat) (file : Option (List Byte))
    (req : Request) (resp : Response)
    (hreq : attemptRequest w c url opts (statSize file) = some req)
    (hdo : c.Do (w.net attempt) req = .response resp) (h206 : resp.StatusCode = 206) :
    attemptOnce w c url opts attempt file =
      streamTo w c attempt file resp (statSize file) (sleepBefore c attempt ++ [.Do req]) := by
  simp [attemptOnce, hreq, hdo, h206]

theorem attemptOnce_200 (w : World) (c : Client) (url : String)
    (opts : Option RequestOption) (attempt : Nat) (file : Option (List Byte))
    (req : Request) (resp : Response)
    (hreq : attemptRequest w c url opts (statSize file) = some req)
    (hdo : c.Do (w.net attempt) req = .response resp) (h200 : resp.StatusCode = 200) :
    attemptOnce w c url opts attempt file =
      streamTo w c attempt file resp 0 (sleepBefore c attempt ++ [.Do req]) := by
  simp [attemptOnce, hreq, hdo, h200]

theorem getD_length (file : Option (List Byte)) : (file.getD []).length = statSize file := by
  cases file <;> rfl

/-- The request of an attempt that finds `startPos > 0` bytes on disk carries
`Range: bytes=<startPos>-`. -/
theorem attemptRequest_range (w : World) (c : Client) (url : String)
    (opts : Option RequestOption) (startPos : Nat) (req : Request) (hpos : 0 < startPos)
    (hreq : attemptRequest w c url opts startPos = some req) :
    req.Header.values (w.canon "Range") = some ["bytes=" ++ toString startPos ++ "-"] := by
  unfold attemptRequest at hreq
  cases hn : NewRequest w.parseURL "GET" url with
  | none => simp [hn] at hreq
  | some r0 =>
    simp only [hn, Option.map_some', hpos, if_true, Option.some.injEq] at hreq
    rw [← hreq]
    simp [values_Set]

/-- One uninterrupted attempt on a missing file: status 200, the whole body, `io.EOF`. -/
theorem DownloadFile_uninterrupted (w : World) (c : Client) (url : String)
    (opts : Option RequestOption) (req : Request) (resp : Response)
    (hmax : 1 ≤ c.maxRetries) (hmk : w.MkdirAll = .ok ())
    (hreq : attemptRequest w c url opts 0 = some req)
    (hdo : c.Do (w.net 0) req = .response resp)
    (h200 : resp.StatusCode = 200) (hlen : 0 < resp.ContentLength)
    (heof : resp.Body.endsEOF = true)
    (hopen : w.OpenFile 0 = .ok ()) (hw : ∀ j, w.Write 0 j = none) :
    DownloadFile w c url opts none =
      ⟨.success, some resp.Body.bytes,
        [.Do req, .OpenFile false, .NewDownloadProgress resp.ContentLength 0]
          ++ resp.Body.steps⟩ := by
  obtain ⟨n, hn⟩ : ∃ n : Nat, c.maxRetries.toNat = n + 1 :=
    ⟨c.maxRetries.toNat - 1, by omega⟩
  simp only [DownloadFile, hmk, hn]
  rw [DownloadFile.loop, attemptOnce_200 w c url opts 0 none req resp hreq hdo h200,
    streamTo_overwrite w c 0 none resp _ hlen hopen hw]
  simp [heof, sleepBefore]

/-! ## Transport errors -/

theorem RoundTrip_unsupported_scheme (u : uTransport) (net : Net) (req : Request)
    (h1 : req.URL.Scheme ≠ "http") (h2 : req.URL.Scheme ≠ "https") :
    RoundTrip u net req = ⟨.error (.unsupportedScheme req.URL.Scheme), req, []⟩ := by
  simp [RoundTrip, h1, h2]

theorem RoundTrip_proxy_nil (u : uTransport) (net : Net) (req : Request)
    (proxy : Request → IOResult (Option URL))
    (hs : req.URL.Scheme = "https") (hp : u.tr1.Proxy = some proxy)
    (hnil : proxy req = .ok none) :
    RoundTrip u net req = ⟨.error .proxyNotConfigured, req, []⟩ := by
  simp [RoundTrip, hs, hp, hnil]

/-- With an empty proxy string `NewClient` leaves `Proxy` nil, and `RoundTrip` calls it for
every `https` request: a panic, whatever the network. -/
theorem RoundTrip_nil_proxy_panics (urlParse : String → Option URL)
    (maxRetries retryDelay : Int) (net : Net) (req : Request)
    (hs : req.URL.Scheme = "https") :
    RoundTrip (NewClient urlParse "" maxRetries retryDelay).client net req =
      ⟨.panic, req, []⟩ := by
  simp [RoundTrip, hs, NewClient]

/-- A client on `deadNet` gets an error for every request once a proxy function is set. -/
theorem deadNet_fails (urlParse : String → Option URL) (proxyURL : String)
    (maxRetries retryDelay : Int) (hp : proxyURL ≠ "") (r : Request) :
    ∃ e, (NewClient urlParse proxyURL maxRetries retryDelay).Do deadNet r = .error e := by
  by_cases h1 : r.URL.Scheme = "http"
  · exact ⟨.library "connection refused", by simp [Client.Do, RoundTrip, h1, deadNet, IOResult.toResult]⟩
  · by_cases h2 : r.URL.Scheme = "https"
    · cases hu : urlParse proxyURL with
      | none =>
        exact ⟨.proxyNotConfigured, by
          simp [Client.Do, RoundTrip, h2, NewClient, hp, ProxyURL, hu]⟩
      | some p =>
        exact ⟨.proxyDial "connection refused", by
          simp [Client.Do, RoundTrip, h2, NewClient, hp, ProxyURL, hu, RoundTrip.tunnel,
            deadNet]⟩
    · exact ⟨.unsupportedScheme r.URL.Scheme, by simp [Client.Do, RoundTrip, h1, h2]⟩

/-! ## The tunnel and the dispatch -/

/-- A run of `RoundTrip` with a proxy URL, up to the proxy's answer to CONNECT. -/
theorem RoundTrip_tunnel (u : uTransport) (net : Net) (req : Request)
    (proxy : Request → IOResult (Option URL)) (proxyURL : URL)
    (hs : req.URL.Scheme = "https") (hp : u.tr1.Proxy = some proxy)
    (hurl : proxy req = .ok (some proxyURL)) :
    RoundTrip u net req = RoundTrip.tunnel u net req proxyURL := by
  simp [RoundTrip, hs, hp, hurl]

/-- A handshake among the calls of a run means the proxy answered CONNECT with 200, and
the run began with the dial, the CONNECT request, the read of that answer, the TLS client
and the preset. -/
theorem handshake_needs_200 (u : uTransport) (net : Net) (req : Request)
    (h : NetCall.Handshake ∈ (RoundTrip u net req).calls) :
    ∃ proxyURL resp rest, net.readProxyResponse = .ok resp ∧ resp.StatusCode = 200 ∧
      (RoundTrip u net req).calls =
        [.dial proxyURL, .connWrite (connectRequest req.URL), .readProxyResponse,
          .UClient req.URL.Hostname, .ApplyPreset (newSpec u), .Handshake] ++ rest := by
  unfold RoundTrip at h ⊢
  by_cases h1 : req.URL.Scheme = "http"
  · simp [h1] at h
  by_cases h2 : req.URL.Scheme = "https"
  swap
  · simp [h1, h2] at h
  have h2n : ¬ ("https" = "http") := by decide
  simp only [h2, h2n, if_false, ne_eq, not_true_eq_false] at h ⊢
  cases hp : u.tr1.Proxy with
  | none => simp [hp] at h
  | some proxy =>
    simp only [hp] at h ⊢
    cases hu : proxy req with
    | err cause => simp [hu] at h
    | ok o =>
      cases o with
      | none => simp [hu] at h
      | some proxyURL =>
        simp only [hu] at h ⊢
        unfold RoundTrip.tunnel at h ⊢
        cases hd : net.dial proxyURL.Host with
        | err cause => simp [hd] at h
        | ok _ =>
          simp only [hd] at h ⊢
          cases hw : net.connWrite (connectRequest req.URL) with
          | err cause => simp [hw] at h
          | ok _ =>
            simp only [hw] at h ⊢
            cases hr : net.readProxyResponse with
            | err cause => simp [hr] at h
            | ok resp =>
              simp only [hr] at h ⊢
              by_cases hst : resp.StatusCode = 200
              swap
              · simp [hst] at h
              simp only [hst, ne_eq, not_true_eq_false, if_false] at h ⊢
              unfold RoundTrip.secure at h ⊢
              cases ha : net.applyPreset (newSpec u) with
              | err cause => simp [ha, RoundTripRun.after] at h
              | ok _ =>
                simp only [ha] at h ⊢
                cases hh : net.handshake with
                | err cause => exact ⟨proxyURL.Host, resp, [.tlsClose], rfl, hst, rfl⟩
                | ok alpn =>
                  exact ⟨proxyURL.Host, resp, (dispatchALPN net req alpn).calls, rfl, hst, rfl⟩

/-! ## The claims -/

/-- C10: `newSpec` reads neither its receiver nor any state, so any two calls return equal
specs; the extension list is exactly the eighteen entries of the claim, in its order, and
the version range is TLS 1.2 to TLS 1.3. -/
theorem newSpec_deterministic_extension_order (u v : uTransport) :
    newSpec u = newSpec v ∧
    (newSpec u).Extensions = [
      .UtlsGREASEExtension,
      .SNIExtension,
      .ExtendedMasterSecretExtension,
      .RenegotiationInfoExtension,
      .SupportedCurvesExtension [GREASE_PLACEHOLDER, X25519, CurveP256, CurveP384],
      .SupportedPointsExtension [0],
      .SessionTicketExtension,
      .ALPNExtension ["http/1.1"],
      .StatusRequestExtension,
      .SignatureAlgorithmsExtension
        [0x0403, 0x0804, 0x0401, 0x0503, 0x0805, 0x0501, 0x0806, 0x0601],
      .SCTExtension,
      .KeyShareExtension [⟨GREASE_PLACEHOLDER, [0]⟩, ⟨X25519, []⟩],
      .PSKKeyExchangeModesExtension [PskModeDHE],
      .SupportedVersionsExtension [GREASE_PLACEHOLDER, VersionTLS13, VersionTLS12],
      .UtlsCompressCertExtension [CertCompressionBrotli],
      .ApplicationSettingsExtension ["h2"],
      .UtlsGREASEExtension,
      .UtlsPaddingExtension .BoringPaddingStyle] ∧
    (newSpec u).Extensions.length = 18 ∧
    (newSpec u).TLSVersMin = VersionTLS12 ∧
    (newSpec u).TLSVersMax = VersionTLS13 :=
  ⟨rfl, rfl, rfl, rfl, rfl⟩

/-- C7: on a request as `http.NewRequest` returns it, which is what both callers pass,
`setHeaders` with a present `Headers` map leaves exactly the map's entries in the request:
under each name the value of the entry whose key canonicalises to it (the last such entry
in iteration order), every entry when the canonical keys are distinct, and no other name.
A default value is there only if the map holds it, and the result is the same for every
client. On any request at all the names the map does not set stay as they were. Without
options, or with a nil map, the defaults are set. -/
theorem setHeaders_custom_replaces_defaults (canon : String → String) (c : Client)
    (parseURL : String → Option URL) (method url : String)
    (req : Request) (m : List (String × String))
    (hnew : NewRequest parseURL method url = some req) :
    (∀ name, (setHeaders canon c req (some ⟨some m⟩)).Header.values name
        = (lastValue canon m name).map fun v => [v]) ∧
    ((m.map fun kv => canon kv.1).Nodup → ∀ kv ∈ m,
      (setHeaders canon c req (some ⟨some m⟩)).Header.values (canon kv.1) = some [kv.2]) ∧
    (∀ name vs, (setHeaders canon c req (some ⟨some m⟩)).Header.values name = some vs →
      ∃ kv ∈ m, canon kv.1 = name ∧ vs = [kv.2]) ∧
    (∀ d ∈ c.defaultHeaders,
      (setHeaders canon c req (some ⟨some m⟩)).Header.values (canon d.1) = some [d.2] →
      ∃ kv ∈ m, canon kv.1 = canon d.1 ∧ kv.2 = d.2) ∧
    (∀ c2 : Client, setHeaders canon c2 req (some ⟨some m⟩)
        = setHeaders canon c req (some ⟨some m⟩)) ∧
    (∀ (r : Request) (name : String),
      (setHeaders canon c r (some ⟨some m⟩)).Header.values name =
        match lastValue canon m name with
        | some v => some [v]
        | none => r.Header.values name) ∧
    setHeaders canon c req none = setAll canon req c.defaultHeaders ∧
    setHeaders canon c req (some ⟨none⟩) = setAll canon req c.defaultHeaders := by
  have hfresh : req.Header = ⟨[]⟩ := by
    unfold NewRequest at hnew
    cases hp : parseURL url with
    | none => simp [hp] at hnew
    | some u =>
      simp only [hp, Option.map_some', Option.some.injEq] at hnew
      rw [← hnew]
  have hval : ∀ name, (setHeaders canon c req (some ⟨some m⟩)).Header.values name
      = (lastValue canon m name).map fun v => [v] := by
    intro name
    show (setAll canon req m).Header.values name = _
    rw [setAll_values, hfresh]
    cases lastValue canon m name <;> rfl
  have honly : ∀ name vs,
      (setHeaders canon c req (some ⟨some m⟩)).Header.values name = some vs →
      ∃ kv ∈ m, canon kv.1 = name ∧ vs = [kv.2] := by
    intro name vs h
    rw [hval] at h
    cases hl : lastValue canon m name with
    | none => rw [hl] at h; simp at h
    | some v =>
      rw [hl] at h
      obtain ⟨kv, hkv, h1, h2⟩ := lastValue_mem canon name v m hl
      refine ⟨kv, hkv, h1, ?_⟩
      simp only [Option.map_some', Option.some.injEq] at h
      rw [← h, h2]
  refine ⟨hval, ?_, honly, ?_, fun _ => rfl,
    fun r name => setAll_values canon name m r, rfl, rfl⟩
  · intro hnd kv hkv
    rw [hval, lastValue_nodup canon m hnd kv hkv]
    rfl
  · intro d _ h
    obtain ⟨kv, hkv, h1, h2⟩ := honly _ _ h
    refine ⟨kv, hkv, h1, ?_⟩
    simpa using h2.symm

/-- C7 on the request for `http://example.com/f` and the map with the one entry
`X-Test: 1`: the header holds that entry alone, and no `user-agent`. -/
theorem setHeaders_custom_replaces_defaults_witness :
    NewRequest exampleParse "GET" "http://example.com/f" =
      some ⟨"GET", ⟨"http", "example.com", "", "example.com"⟩, ⟨[]⟩, "HTTP/1.1", 1, 1⟩ ∧
    (setHeaders id (NewClient exampleParse "" 3 5)
        ⟨"GET", ⟨"http", "example.com", "", "example.com"⟩, ⟨[]⟩, "HTTP/1.1", 1, 1⟩
        (some ⟨some [("X-Test", "1")]⟩)).Header = ⟨[("X-Test", ["1"])]⟩ ∧
    (setHeaders id (NewClient exampleParse "" 3 5)
        ⟨"GET", ⟨"http", "example.com", "", "example.com"⟩, ⟨[]⟩, "HTTP/1.1", 1, 1⟩
        (some ⟨some [("X-Test", "1")]⟩)).Header.values "user-agent" = none :=
  ⟨rfl, by decide,
    (setHeaders_custom_replaces_defaults id (NewClient exampleParse "" 3 5) exampleParse
      "GET" "http://example.com/f"
      ⟨"GET", ⟨"http", "example.com", "", "example.com"⟩, ⟨[]⟩, "HTTP/1.1", 1, 1⟩
      [("X-Test", "1")] rfl).1 "user-agent"⟩

/-- C1: with `maxRetries = N ≥ 1`, a directory that can be created, a URL from which the
request `req` can be built, and a transport that answers every request with an error,
`DownloadFile` takes exactly these steps: the request, then `N - 1` times a sleep of
`retryDelay` followed by the request. So it sends `N` requests and sleeps `N - 1` times,
never before the first request; it returns the send error and leaves the file alone. -/
theorem DownloadFile_failing_transport (w : World) (c : Client) (url : String)
    (opts : Option RequestOption) (file : Option (List Byte)) (req : Request)
    (hN : 1 ≤ c.maxRetries) (hmk : w.MkdirAll = .ok ())
    (hreq : attemptRequest w c url opts (statSize file) = some req)
    (hfail : ∀ k r, ∃ e, c.Do (w.net k) r = .error e) :
    (DownloadFile w c url opts file).events =
      .Do req :: (List.replicate (c.maxRetries.toNat - 1)
        [Event.Sleep c.retryDelay, Event.Do req]).flatten ∧
    requestsSent (DownloadFile w c url opts file).events = c.maxRetries.toNat ∧
    sleepsTaken (DownloadFile w c url opts file).events = c.maxRetries.toNat - 1 ∧
    (∃ e, (DownloadFile w c url opts file).outcome =
      .failure (.sendRequest c.maxRetries e)) ∧
    (DownloadFile w c url opts file).file = file := by
  obtain ⟨e, _, hrun⟩ := DownloadFile_all_errors w c url opts file req hN hmk hreq
    (fun k => hfail k req)
  obtain ⟨n, hn⟩ : ∃ n : Nat, c.maxRetries.toNat = n + 1 :=
    ⟨c.maxRetries.toNat - 1, by omega⟩
  rw [hrun]
  refine ⟨rfl, ?_, ?_, ⟨e, rfl⟩, rfl⟩
  · show requestsSent (failingSteps c req c.maxRetries.toNat) = _
    rw [hn, requestsSent_failingSteps]
  · show sleepsTaken (failingSteps c req c.maxRetries.toNat) = _
    rw [hn, sleepsTaken_failingSteps]
    rfl

/-- C1 with three attempts on a network where every library call fails: three requests,
two sleeps. -/
theorem DownloadFile_failing_transport_witness :
    requestsSent (DownloadFile (exampleWorld fun _ => deadNet)
      (NewClient exampleParse "http://127.0.0.1:7890" 3 5) "http://example.com/f" none
      none).events = 3 ∧
    sleepsTaken (DownloadFile (exampleWorld fun _ => deadNet)
      (NewClient exampleParse "http://127.0.0.1:7890" 3 5) "http://example.com/f" none
      none).events = 2 :=
  have h := DownloadFile_failing_transport (exampleWorld fun _ => deadNet)
    (NewClient exampleParse "http://127.0.0.1:7890" 3 5) "http://example.com/f" none none
    _ (by decide) rfl rfl
    (fun _ r => deadNet_fails exampleParse "http://127.0.0.1:7890" 3 5 (by decide) r)
  ⟨h.2.1, h.2.2.1⟩

/-- C6: at any attempt index and with any number of attempts left, a response with status
416 makes `DownloadFile` return nil at once. The steps of that attempt are the sleep before
it (none on the first attempt) and the request; no file is opened or written, no progress
tracker is made, no further sleep or request follows, and the file is as it was. When it is
the first attempt that gets the 416, the whole call consists of the one request. -/
theorem DownloadFile_416_returns_success (w : World) (c : Client) (url : String)
    (opts : Option RequestOption) (remaining attempt : Nat) (file : Option (List Byte))
    (req : Request) (resp : Response)
    (hreq : attemptRequest w c url opts (statSize file) = some req)
    (hdo : c.Do (w.net attempt) req = .response resp) (h416 : resp.StatusCode = 416) :
    DownloadFile.loop w c url opts (remaining + 1) attempt file =
      ⟨.success, file, sleepBefore c attempt ++ [.Do req]⟩ ∧
    (attempt = 0 → w.MkdirAll = .ok () → 1 ≤ c.maxRetries →
      DownloadFile w c url opts file = ⟨.success, file, [.Do req]⟩) := by
  have hloop : ∀ r, DownloadFile.loop w c url opts (r + 1) attempt file =
      ⟨.success, file, sleepBefore c attempt ++ [.Do req]⟩ := fun r => by
    simp [DownloadFile.loop, attemptOnce_416 w c url opts attempt file req resp hreq hdo h416]
  refine ⟨hloop remaining, ?_⟩
  intro h0 hmk hN
  obtain ⟨n, hn⟩ : ∃ n : Nat, c.maxRetries.toNat = n + 1 :=
    ⟨c.maxRetries.toNat - 1, by omega⟩
  subst h0
  simp only [DownloadFile, hmk, hn]
  rw [hloop n]
  rfl

/-- C6 on a three-byte file and a server answering 416: one request with
`Range: bytes=3-`, nothing else, the file as before. -/
theorem DownloadFile_416_returns_success_witness :
    DownloadFile (exampleWorld fun _ => plainNet ⟨416, "416 Range Not Satisfiable", 0, .eof []⟩)
      (NewClient exampleParse "" 3 5) "http://example.com/f" none (some [1, 2, 3]) =
    ⟨.success, some [1, 2, 3],
      [.Do ⟨"GET", ⟨"http", "example.com", "", "example.com"⟩,
        ⟨[("Range", ["bytes=3-"]),
          ("user-agent", ["Mozilla/5.0 (Macintosh; Intel Mac OS X 10_15_7) AppleWebKit/537.36 (KHTML, like Gecko) Chrome/112.0.0.0 Safari/537.36"]),
          ("accept-language", ["en,zh-CN;q=0.9,zh;q=0.8"]),
          ("accept", ["text/html,application/xhtml+xml,application/xml;q=0.9,image/avif,image/webp,image/apng,*/*;q=0.8,application/signed-exchange;v=b3;q=0.7"])]⟩,
        "HTTP/1.1", 1, 1⟩]⟩ :=
  (DownloadFile_416_returns_success
    (exampleWorld fun _ => plainNet ⟨416, "416 Range Not Satisfiable", 0, .eof []⟩)
    (NewClient exampleParse "" 3 5) "http://example.com/f" none 2 0 (some [1, 2, 3])
    _ ⟨416, "416 Range Not Satisfiable", 0, .eof []⟩ rfl rfl rfl).2 rfl rfl (by decide)

/-- C5, refuted as stated: with the default three attempts, a request that the transport
rejects for its scheme, and one it rejects for the missing proxy URL, are each sent three
times with two sleeps in between, not once with none. -/
theorem DownloadFile_configuration_error_is_retried :
    (NewClient exampleParse "" 3 5).Do deadNet
        ⟨"GET", ⟨"ftp", "example.com", "", "example.com"⟩, ⟨[]⟩, "HTTP/1.1", 1, 1⟩
      = .error (.unsupportedScheme "ftp") ∧
    (DownloadFile (exampleWorld fun _ => deadNet) (NewClient exampleParse "" 3 5)
        "ftp://example.com/f" none none).outcome
      = .failure (.sendRequest 3 (.unsupportedScheme "ftp")) ∧
    requestsSent (DownloadFile (exampleWorld fun _ => deadNet) (NewClient exampleParse "" 3 5)
        "ftp://example.com/f" none none).events = 3 ∧
    sleepsTaken (DownloadFile (exampleWorld fun _ => deadNet) (NewClient exampleParse "" 3 5)
        "ftp://example.com/f" none none).events = 2 ∧
    (NewClient exampleParse ":7890" 3 5).Do deadNet
        ⟨"GET", ⟨"https", "example.com", "", "example.com"⟩, ⟨[]⟩, "HTTP/1.1", 1, 1⟩
      = .error .proxyNotConfigured ∧
    (DownloadFile (exampleWorld fun _ => deadNet) (NewClient exampleParse ":7890" 3 5)
        "https://example.com/f" none none).outcome
      = .failure (.sendRequest 3 .proxyNotConfigured) ∧
    requestsSent (DownloadFile (exampleWorld fun _ => deadNet)
        (NewClient exampleParse ":7890" 3 5)
        "https://example.com/f" none none).events = 3 ∧
    sleepsTaken (DownloadFile (exampleWorld fun _ => deadNet)
        (NewClient exampleParse ":7890" 3 5)
        "https://example.com/f" none none).events = 2 := by
  decide

/-- C5, amended: a request the transport rejects because its scheme is neither `http` nor
`https`, or because the proxy function yields no URL for an `https` request, is retried
like any other failed request. With `maxRetries = N ≥ 1` the transport rejects it without
touching the network, `DownloadFile` sends it `N` times with `N - 1` sleeps in between and
then returns that error. -/
theorem DownloadFile_configuration_error_attempts (w : World) (c : Client) (url : String)
    (opts : Option RequestOption) (file : Option (List Byte)) (req : Request)
    (hN : 1 ≤ c.maxRetries) (hmk : w.MkdirAll = .ok ())
    (hreq : attemptRequest w c url opts (statSize file) = some req)
    (hcfg : (req.URL.Scheme ≠ "http" ∧ req.URL.Scheme ≠ "https") ∨
      (req.URL.Scheme = "https" ∧
        ∃ proxy, c.client.tr1.Proxy = some proxy ∧ proxy req = .ok none)) :
    ∃ e, (e = .unsupportedScheme req.URL.Scheme ∨ e = .proxyNotConfigured) ∧
      (∀ net, RoundTrip c.client net req = ⟨.error e, req, []⟩) ∧
      DownloadFile w c url opts file =
        ⟨.failure (.sendRequest c.maxRetries e), file,
          .Do req :: (List.replicate (c.maxRetries.toNat - 1)
            [Event.Sleep c.retryDelay, Event.Do req]).flatten⟩ ∧
      requestsSent (DownloadFile w c url opts file).events = c.maxRetries.toNat ∧
      sleepsTaken (DownloadFile w c url opts file).events = c.maxRetries.toNat - 1 := by
  obtain ⟨e, he, hrt⟩ : ∃ e, (e = .unsupportedScheme req.URL.Scheme ∨ e = .proxyNotConfigured) ∧
      ∀ net, RoundTrip c.client net req = ⟨.error e, req, []⟩ := by
    rcases hcfg with ⟨h1, h2⟩ | ⟨hs, proxy, hp, hnil⟩
    · exact ⟨_, Or.inl rfl, fun net => RoundTrip_unsupported_scheme c.client net req h1 h2⟩
    · exact ⟨_, Or.inr rfl, fun net => RoundTrip_proxy_nil c.client net req proxy hs hp hnil⟩
  have hdo : ∀ k, c.Do (w.net k) req = .error e := fun k => by
    simp only [Client.Do, hrt]
  obtain ⟨e2, he2, hrun⟩ := DownloadFile_all_errors w c url opts file req hN hmk hreq
    (fun k => ⟨e, hdo k⟩)
  have hee : e2 = e := by
    rw [hdo] at he2
    injection he2 with h
    exact h.symm
  subst hee
  obtain ⟨n, hn⟩ : ∃ n : Nat, c.maxRetries.toNat = n + 1 :=
    ⟨c.maxRetries.toNat - 1, by omega⟩
  refine ⟨e2, he, hrt, hrun, ?_, ?_⟩
  · rw [hrun]
    show requestsSent (failingSteps c req c.maxRetries.toNat) = _
    rw [hn, requestsSent_failingSteps]
  · rw [hrun]
    show sleepsTaken (failingSteps c req c.maxRetries.toNat) = _
    rw [hn, sleepsTaken_failingSteps]
    rfl

/-- C5 as amended, with two attempts and an `ftp` address: two requests around one
sleep. -/
theorem DownloadFile_configuration_error_attempts_witness :
    ∃ e, (e = TransportError.unsupportedScheme "ftp" ∨ e = .proxyNotConfigured) ∧
      (∀ net, RoundTrip (NewClient exampleParse "" 2 5).client net
          ⟨"GET", ⟨"ftp", "example.com", "", "example.com"⟩, ⟨[]⟩, "HTTP/1.1", 1, 1⟩ =
        ⟨.error e, ⟨"GET", ⟨"ftp", "example.com", "", "example.com"⟩, ⟨[]⟩, "HTTP/1.1", 1, 1⟩,
          []⟩) ∧
      DownloadFile (exampleWorld fun _ => deadNet) (NewClient exampleParse "" 2 5)
          "ftp://example.com/f" (some ⟨some []⟩) none =
        ⟨.failure (.sendRequest 2 e), none,
          [.Do ⟨"GET", ⟨"ftp", "example.com", "", "example.com"⟩, ⟨[]⟩, "HTTP/1.1", 1, 1⟩,
            .Sleep 5000000000,
            .Do ⟨"GET", ⟨"ftp", "example.com", "", "example.com"⟩, ⟨[]⟩, "HTTP/1.1", 1, 1⟩]⟩ ∧
      requestsSent (DownloadFile (exampleWorld fun _ => deadNet)
        (NewClient exampleParse "" 2 5) "ftp://example.com/f" (some ⟨some []⟩) none).events
          = 2 ∧
      sleepsTaken (DownloadFile (exampleWorld fun _ => deadNet)
        (NewClient exampleParse "" 2 5) "ftp://example.com/f" (some ⟨some []⟩) none).events
          = 1 :=
  DownloadFile_configuration_error_attempts (exampleWorld fun _ => deadNet)
    (NewClient exampleParse "" 2 5) "ftp://example.com/f" (some ⟨some []⟩) none
    ⟨"GET", ⟨"ftp", "example.com", "", "example.com"⟩, ⟨[]⟩, "HTTP/1.1", 1, 1⟩
    (by decide) rfl rfl (Or.inl ⟨by decide, by decide⟩)

/-- C3: at any attempt, a response with status 206 and content length `L > 0` whose body
delivers `L` bytes in reads of any sizes and then `io.EOF`, with the file opening and every
write succeeding, makes `DownloadFile` return nil. The file is then the prior content
followed by the body: its first `priorSize` bytes are the prior content, the bytes from
`priorSize` on are the `L` body bytes, exactly those bytes were handed to `Write`, and the
size is `priorSize + L`. -/
theorem DownloadFile_206_writes_at_prior_size (w : World) (c : Client) (url : String)
    (opts : Option RequestOption) (remaining attempt : Nat) (file : Option (List Byte))
    (req : Request) (resp : Response)
    (hreq : attemptRequest w c url opts (statSize file) = some req)
    (hdo : c.Do (w.net attempt) req = .response resp)
    (h206 : resp.StatusCode = 206) (hlen : 0 < resp.ContentLength)
    (hbody : (resp.Body.bytes.length : Int) = resp.ContentLength)
    (heof : resp.Body.endsEOF = true)
    (hopen : w.OpenFile attempt = .ok ()) (hw : ∀ j, w.Write attempt j = none) :
    (DownloadFile.loop w c url opts (remaining + 1) attempt file).outcome = .success ∧
    (DownloadFile.loop w c url opts (remaining + 1) attempt file).file =
      some (file.getD [] ++ resp.Body.bytes) ∧
    (((DownloadFile.loop w c url opts (remaining + 1) attempt file).file).getD []).take
      (statSize file) = file.getD [] ∧
    (((DownloadFile.loop w c url opts (remaining + 1) attempt file).file).getD []).drop
      (statSize file) = resp.Body.bytes ∧
    writtenBytes (DownloadFile.loop w c url opts (remaining + 1) attempt file).events =
      resp.Body.bytes ∧
    (statSize (DownloadFile.loop w c url opts (remaining + 1) attempt file).file : Int) =
      statSize file + resp.ContentLength := by
  have hrun : DownloadFile.loop w c url opts (remaining + 1) attempt file =
      ⟨.success, some (file.getD [] ++ resp.Body.bytes),
        sleepBefore c attempt ++ [.Do req] ++
          [.OpenFile (decide (statSize file > 0)),
            .NewDownloadProgress (statSize file + resp.ContentLength) (statSize file)] ++
          resp.Body.steps⟩ := by
    rw [DownloadFile.loop, attemptOnce_206 w c url opts attempt file req resp hreq hdo h206]
    by_cases hpos : 0 < statSize file
    · rw [streamTo_append w c attempt file resp _ _ hlen hpos hopen hw]
      simp [heof, hpos]
    · have hz : statSize file = 0 := by omega
      have hnil : file.getD [] = [] := by
        cases file with
        | none => rfl
        | some l =>
          cases l with
          | nil => rfl
          | cons a t => simp [statSize] at hz
      rw [hz, streamTo_overwrite w c attempt file resp _ hlen hopen hw]
      simp [heof, hnil]
  rw [hrun]
  refine ⟨rfl, rfl, ?_, ?_, ?_, ?_⟩
  · simp only [Option.getD_some]
    rw [← getD_length, List.take_left]
  · simp only [Option.getD_some]
    rw [← getD_length, List.drop_left]
  · have hs : writtenBytes (sleepBefore c attempt) = [] := by
      unfold sleepBefore
      by_cases h : attempt > 0 <;> simp [h, writtenBytes]
    simp [writtenBytes_append, writtenBytes_steps, writtenBytes, hs]
  · simp only [statSize, List.length_append]
    rw [getD_length, ← hbody]
    push_cast
    rfl

/-- C3 on a three-byte file and a 206 body of three bytes in three reads, one of them
empty. -/
theorem DownloadFile_206_writes_at_prior_size_witness :
    (DownloadFile (exampleWorld fun _ => plainNet ⟨206, "206 Partial Content", 3,
        .more [4, 5] (.more [] (.eof [6]))⟩)
      (NewClient exampleParse "" 3 5) "http://example.com/f" none (some [1, 2, 3])).outcome
      = .success ∧
    (DownloadFile (exampleWorld fun _ => plainNet ⟨206, "206 Partial Content", 3,
        .more [4, 5] (.more [] (.eof [6]))⟩)
      (NewClient exampleParse "" 3 5) "http://example.com/f" none (some [1, 2, 3])).file
      = some [1, 2, 3, 4, 5, 6] :=
  have h := DownloadFile_206_writes_at_prior_size
    (exampleWorld fun _ => plainNet ⟨206, "206 Partial Content", 3,
      .more [4, 5] (.more [] (.eof [6]))⟩)
    (NewClient exampleParse "" 3 5) "http://example.com/f" none 2 0 (some [1, 2, 3])
    _ ⟨206, "206 Partial Content", 3, .more [4, 5] (.more [] (.eof [6]))⟩
    rfl rfl rfl (by decide) (by decide) rfl rfl (fun _ => rfl)
  ⟨h.1, h.2.1⟩

/-- C4: no destination file, `maxRetries ≥ 2`, a working file system. The first attempt
gets status 200 with the length of the resource `B`, delivers the first `N` bytes
(`0 < N < |B|`) and then a read error; the second request is answered with status 206 and
the remaining `|B| - N` bytes up to `io.EOF`. Then `DownloadFile` returns nil, the second
request is the one built for offset `N` and carries `Range: bytes=N-`, it is sent after one
sleep, and the file is `B`, the very file a call with one uninterrupted 200 attempt
delivering `B` leaves. -/
theorem DownloadFile_resume_round_trip (w wu : World) (c : Client) (url : String)
    (opts : Option RequestOption) (B : List Byte) (N : Nat)
    (req0 req1 : Request) (r0 r1 ru : Response)
    (hmax : 2 ≤ c.maxRetries) (hN : 0 < N) (hNB : N < B.length)
    (hmk : w.MkdirAll = .ok ())
    (hopen : ∀ k, w.OpenFile k = .ok ()) (hw : ∀ k j, w.Write k j = none)
    (hreq0 : attemptRequest w c url opts 0 = some req0)
    (hdo0 : c.Do (w.net 0) req0 = .response r0)
    (h200 : r0.StatusCode = 200) (hlen0 : r0.ContentLength = B.length)
    (hbytes0 : r0.Body.bytes = B.take N) (herr0 : r0.Body.endsEOF = false)
    (hreq1 : attemptRequest w c url opts N = some req1)
    (hdo1 : c.Do (w.net 1) req1 = .response r1)
    (h206 : r1.StatusCode = 206) (hlen1 : r1.ContentLength = B.length - N)
    (hbytes1 : r1.Body.bytes = B.drop N) (heof1 : r1.Body.endsEOF = true)
    (hmku : wu.MkdirAll = .ok ())
    (hopenu : wu.OpenFile 0 = .ok ()) (hwu : ∀ j, wu.Write 0 j = none)
    (hrequ : attemptRequest wu c url opts 0 = some req0)
    (hdou : c.Do (wu.net 0) req0 = .response ru)
    (h200u : ru.StatusCode = 200) (hlenu : ru.ContentLength = B.length)
    (hbytesu : ru.Body.bytes = B) (heofu : ru.Body.endsEOF = true) :
    (DownloadFile w c url opts none).outcome = .success ∧
    (DownloadFile w c url opts none).file = some B ∧
    (DownloadFile w c url opts none).file = (DownloadFile wu c url opts none).file ∧
    (DownloadFile wu c url opts none).outcome = .success ∧
    req1.Header.values (w.canon "Range") = some ["bytes=" ++ toString N ++ "-"] ∧
    (DownloadFile w c url opts none).events =
      [.Do req0, .OpenFile false, .NewDownloadProgress B.length 0] ++ r0.Body.steps ++
      [.Sleep c.retryDelay, .Do req1, .OpenFile true, .NewDownloadProgress B.length N] ++
        r1.Body.steps := by
  have hB : 0 < (B.length : Int) := by omega
  have hu := DownloadFile_uninterrupted wu c url opts req0 ru (by omega) hmku hrequ hdou
    h200u (by rw [hlenu]; exact hB) heofu hopenu hwu
  obtain ⟨n, hn⟩ : ∃ n : Nat, c.maxRetries.toNat = n + 2 :=
    ⟨c.maxRetries.toNat - 2, by omega⟩
  have htake : (B.take N).length = N := by
    rw [List.length_take]; omega
  have hfirst : attemptOnce w c url opts 0 none =
      ⟨none, some (B.take N),
        [.Do req0, .OpenFile false, .NewDownloadProgress B.length 0] ++ r0.Body.steps⟩ := by
    rw [attemptOnce_200 w c url opts 0 none req0 r0 hreq0 hdo0 h200,
      streamTo_overwrite w c 0 none r0 _ (by rw [hlen0]; exact hB) (hopen 0) (hw 0)]
    have hretry : retryOr c 0 (.readResponse r0.Body.cause) = none :=
      retryOr_more c 0 _ (by push_cast; omega)
    simp [herr0, hretry, hbytes0, hlen0, sleepBefore]
  have hsecond : attemptOnce w c url opts 1 (some (B.take N)) =
      ⟨some .success, some B,
        [.Sleep c.retryDelay, .Do req1, .OpenFile true, .NewDownloadProgress B.length N]
          ++ r1.Body.steps⟩ := by
    have hstat : statSize (some (B.take N)) = N := htake
    rw [attemptOnce_206 w c url opts 1 (some (B.take N)) req1 r1 (by rw [hstat]; exact hreq1)
        hdo1 h206, hstat,
      streamTo_append w c 1 _ r1 N _ (by rw [hlen1]; omega) hN (hopen 1) (hw 1)]
    have hsum : (N : Int) + r1.ContentLength = B.length := by rw [hlen1]; omega
    simp [heof1, hbytes1, hsum, sleepBefore]
  have hrun : DownloadFile w c url opts none =
      ⟨.success, some B,
        [.Do req0, .OpenFile false, .NewDownloadProgress B.length 0] ++ r0.Body.steps ++
        [.Sleep c.retryDelay, .Do req1, .OpenFile true, .NewDownloadProgress B.length N] ++
          r1.Body.steps⟩ := by
    simp only [DownloadFile, hmk, hn]
    rw [DownloadFile.loop, hfirst]
    simp only []
    rw [DownloadFile.loop, hsecond]
    simp
  rw [hrun, hu, hbytesu]
  exact ⟨rfl, rfl, rfl, rfl, attemptRequest_range w c url opts N req1 hN hreq1, rfl⟩

/-- C4 with the resource `[1, 2, 3, 4, 5]` cut after two bytes by a connection reset. -/
theorem DownloadFile_resume_round_trip_witness :
    (DownloadFile (exampleWorld fun k =>
        if k = 0 then plainNet ⟨200, "200 OK", 5, .more [1, 2] (.fail [] "connection reset")⟩
        else plainNet ⟨206, "206 Partial Content", 3, .more [3, 4] (.eof [5])⟩)
      (NewClient exampleParse "" 3 5) "http://example.com/f" none none).outcome = .success ∧
    (DownloadFile (exampleWorld fun k =>
        if k = 0 then plainNet ⟨200, "200 OK", 5, .more [1, 2] (.fail [] "connection reset")⟩
        else plainNet ⟨206, "206 Partial Content", 3, .more [3, 4] (.eof [5])⟩)
      (NewClient exampleParse "" 3 5) "http://example.com/f" none none).file
      = some [1, 2, 3, 4, 5] ∧
    (DownloadFile (exampleWorld fun _ => plainNet ⟨200, "200 OK", 5, .eof [1, 2, 3, 4, 5]⟩)
      (NewClient exampleParse "" 3 5) "http://example.com/f" none none).file
      = some [1, 2, 3, 4, 5] :=
  have h := DownloadFile_resume_round_trip
    (exampleWorld fun k =>
      if k = 0 then plainNet ⟨200, "200 OK", 5, .more [1, 2] (.fail [] "connection reset")⟩
      else plainNet ⟨206, "206 Partial Content", 3, .more [3, 4] (.eof [5])⟩)
    (exampleWorld fun _ => plainNet ⟨200, "200 OK", 5, .eof [1, 2, 3, 4, 5]⟩)
    (NewClient exampleParse "" 3 5) "http://example.com/f" none [1, 2, 3, 4, 5] 2 _ _
    ⟨200, "200 OK", 5, .more [1, 2] (.fail [] "connection reset")⟩
    ⟨206, "206 Partial Content", 3, .more [3, 4] (.eof [5])⟩
    ⟨200, "200 OK", 5, .eof [1, 2, 3, 4, 5]⟩
    (by decide) (by decide) (by decide) rfl (fun _ => rfl) (fun _ _ => rfl)
    rfl rfl rfl rfl rfl rfl rfl rfl rfl rfl rfl rfl
    rfl rfl (fun _ => rfl) rfl rfl rfl rfl rfl rfl
  ⟨h.1, h.2.1, h.2.2.1 ▸ h.2.1⟩

/-- C2, the run that breaks it: the destination holds six bytes, the server answers the
range request with status 200 and a three-byte body that is read to `io.EOF`. The file is
opened without `O_APPEND` and is not truncated, so `DownloadFile` returns nil and leaves
the three body bytes followed by the last three old bytes: six bytes, not the body. -/
theorem DownloadFile_fresh_keeps_old_tail :
    (DownloadFile (exampleWorld fun _ => plainNet ⟨200, "200 OK", 3, .more [1, 2] (.eof [3])⟩)
        (NewClient exampleParse "" 3 5) "http://example.com/f" none
        (some [9, 9, 9, 9, 9, 9])).outcome = .success ∧
    (DownloadFile (exampleWorld fun _ => plainNet ⟨200, "200 OK", 3, .more [1, 2] (.eof [3])⟩)
        (NewClient exampleParse "" 3 5) "http://example.com/f" none
        (some [9, 9, 9, 9, 9, 9])).file = some [1, 2, 3, 9, 9, 9] ∧
    (DownloadFile (exampleWorld fun _ => plainNet ⟨200, "200 OK", 3, .more [1, 2] (.eof [3])⟩)
        (NewClient exampleParse "" 3 5) "http://example.com/f" none
        (some [9, 9, 9, 9, 9, 9])).file ≠ some [1, 2, 3] ∧
    writtenBytes (DownloadFile
        (exampleWorld fun _ => plainNet ⟨200, "200 OK", 3, .more [1, 2] (.eof [3])⟩)
        (NewClient exampleParse "" 3 5) "http://example.com/f" none
        (some [9, 9, 9, 9, 9, 9])).events = [1, 2, 3] ∧
    Event.OpenFile false ∈ (DownloadFile
        (exampleWorld fun _ => plainNet ⟨200, "200 OK", 3, .more [1, 2] (.eof [3])⟩)
        (NewClient exampleParse "" 3 5) "http://example.com/f" none
        (some [9, 9, 9, 9, 9, 9])).events := by
  decide

/-- C8: an `https` request through a proxy that is reached, is sent CONNECT and answers
with a status other than 200 ends in the error that carries the proxy's status text. The
calls of the run are the dial, the CONNECT write, the read of the answer and the close of
the connection, in this order: no TLS client is made and no handshake is started. In every
run, a handshake among the calls means the proxy answered 200, and the handshake comes
after the read of that answer. -/
theorem RoundTrip_connect_rejected (u : uTransport) (net : Net) (req : Request)
    (proxy : Request → IOResult (Option URL)) (proxyURL : URL) (resp : Response)
    (hs : req.URL.Scheme = "https") (hp : u.tr1.Proxy = some proxy)
    (hurl : proxy req = .ok (some proxyURL))
    (hdial : net.dial proxyURL.Host = .ok ())
    (hwrite : net.connWrite (connectRequest req.URL) = .ok ())
    (hread : net.readProxyResponse = .ok resp) (hstatus : resp.StatusCode ≠ 200) :
    RoundTrip u net req =
      ⟨.error (.connectStatus resp.Status), req,
        [.dial proxyURL.Host, .connWrite (connectRequest req.URL), .readProxyResponse,
          .connClose]⟩ ∧
    (TransportError.connectStatus resp.Status).message =
      "proxy CONNECT failed with status: " ++ resp.Status ∧
    (RoundTrip u net req).calls.getLast? = some .connClose ∧
    (∀ name, NetCall.UClient name ∉ (RoundTrip u net req).calls) ∧
    NetCall.Handshake ∉ (RoundTrip u net req).calls ∧
    (∀ (u2 : uTransport) (net2 : Net) (req2 : Request),
      NetCall.Handshake ∈ (RoundTrip u2 net2 req2).calls →
      ∃ host answer rest, net2.readProxyResponse = .ok answer ∧ answer.StatusCode = 200 ∧
        (RoundTrip u2 net2 req2).calls =
          [.dial host, .connWrite (connectRequest req2.URL), .readProxyResponse,
            .UClient req2.URL.Hostname, .ApplyPreset (newSpec u2), .Handshake] ++ rest) := by
  have hrun : RoundTrip u net req =
      ⟨.error (.connectStatus resp.Status), req,
        [.dial proxyURL.Host, .connWrite (connectRequest req.URL), .readProxyResponse,
          .connClose]⟩ := by
    rw [RoundTrip_tunnel u net req proxy proxyURL hs hp hurl]
    simp [RoundTrip.tunnel, hdial, hwrite, hread, hstatus]
  rw [hrun]
  refine ⟨rfl, rfl, rfl, ?_, ?_, fun u2 net2 req2 h => handshake_needs_200 u2 net2 req2 h⟩
  · intro name
    simp
  · simp

/-- C8 with a proxy that answers CONNECT with 407. -/
theorem RoundTrip_connect_rejected_witness :
    RoundTrip (NewClient exampleParse "http://127.0.0.1:7890" 3 5).client
        (tunnelNet ⟨407, "407 Proxy Authentication Required", 0, .eof []⟩ "h2"
          ⟨200, "200 OK", 1, .eof [7]⟩)
        ⟨"GET", ⟨"https", "example.com", "", "example.com"⟩, ⟨[]⟩, "HTTP/1.1", 1, 1⟩ =
      ⟨.error (.connectStatus "407 Proxy Authentication Required"),
        ⟨"GET", ⟨"https", "example.com", "", "example.com"⟩, ⟨[]⟩, "HTTP/1.1", 1, 1⟩,
        [.dial "127.0.0.1:7890",
          .connWrite "CONNECT example.com:443 HTTP/1.1\r\nHost: example.com\r\n\r\n",
          .readProxyResponse, .connClose]⟩ :=
  (RoundTrip_connect_rejected (NewClient exampleParse "http://127.0.0.1:7890" 3 5).client
    (tunnelNet ⟨407, "407 Proxy Authentication Required", 0, .eof []⟩ "h2"
      ⟨200, "200 OK", 1, .eof [7]⟩)
    ⟨"GET", ⟨"https", "example.com", "", "example.com"⟩, ⟨[]⟩, "HTTP/1.1", 1, 1⟩
    (ProxyURL (exampleParse "http://127.0.0.1:7890"))
    ⟨"http", "127.0.0.1:7890", "7890", "127.0.0.1"⟩
    ⟨407, "407 Proxy Authentication Required", 0, .eof []⟩
    rfl rfl rfl rfl rfl rfl (by decide)).1

/-- C9: after a successful handshake the negotiated protocol decides the rest of the run,
one of three ways. `"h2"`: the request's protocol fields become HTTP/2.0, 2, 0 and an
HTTP/2 client connection is made on the TLS connection; the request goes out on it, or the
error of making it is returned. `"http/1.1"` or the empty string: the fields become
HTTP/1.1, 1, 1, the request is written to the TLS connection and the response read from
it, or the write error is returned. Any other string: the error is the unsupported-ALPN
error with that string, the request is untouched, and nothing follows the handshake, no
write and no HTTP/2 connection. -/
theorem RoundTrip_alpn_dispatch (u : uTransport) (net : Net) (req : Request)
    (proxy : Request → IOResult (Option URL)) (proxyURL : URL) (resp : Response)
    (alpn : String)
    (hs : req.URL.Scheme = "https") (hp : u.tr1.Proxy = some proxy)
    (hurl : proxy req = .ok (some proxyURL))
    (hdial : net.dial proxyURL.Host = .ok ())
    (hwrite : net.connWrite (connectRequest req.URL) = .ok ())
    (hread : net.readProxyResponse = .ok resp) (hstatus : resp.StatusCode = 200)
    (hpreset : net.applyPreset (newSpec u) = .ok ())
    (hshake : net.handshake = .ok alpn) :
    (alpn = "h2" →
      (RoundTrip u net req).req = ⟨req.Method, req.URL, req.Header, "HTTP/2.0", 2, 0⟩ ∧
      (net.newClientConn = .ok () →
        RoundTrip u net req =
          ⟨(net.h2RoundTrip ⟨req.Method, req.URL, req.Header, "HTTP/2.0", 2, 0⟩).toResult,
            ⟨req.Method, req.URL, req.Header, "HTTP/2.0", 2, 0⟩,
            [.dial proxyURL.Host, .connWrite (connectRequest req.URL), .readProxyResponse,
              .UClient req.URL.Hostname, .ApplyPreset (newSpec u), .Handshake,
              .NewClientConn,
              .h2RoundTrip ⟨req.Method, req.URL, req.Header, "HTTP/2.0", 2, 0⟩]⟩) ∧
      (∀ cause, net.newClientConn = .err cause →
        RoundTrip u net req =
          ⟨.error (.newClientConn cause),
            ⟨req.Method, req.URL, req.Header, "HTTP/2.0", 2, 0⟩,
            [.dial proxyURL.Host, .connWrite (connectRequest req.URL), .readProxyResponse,
              .UClient req.URL.Hostname, .ApplyPreset (newSpec u), .Handshake,
              .NewClientConn]⟩)) ∧
    (alpn = "http/1.1" ∨ alpn = "" →
      (RoundTrip u net req).req = ⟨req.Method, req.URL, req.Header, "HTTP/1.1", 1, 1⟩ ∧
      (net.requestWrite ⟨req.Method, req.URL, req.Header, "HTTP/1.1", 1, 1⟩ = .ok () →
        RoundTrip u net req =
          ⟨net.readResponse.toResult,
            ⟨req.Method, req.URL, req.Header, "HTTP/1.1", 1, 1⟩,
            [.dial proxyURL.Host, .connWrite (connectRequest req.URL), .readProxyResponse,
              .UClient req.URL.Hostname, .ApplyPreset (newSpec u), .Handshake,
              .requestWrite ⟨req.Method, req.URL, req.Header, "HTTP/1.1", 1, 1⟩,
              .readResponse]⟩) ∧
      (∀ cause,
        net.requestWrite ⟨req.Method, req.URL, req.Header, "HTTP/1.1", 1, 1⟩ = .err cause →
        RoundTrip u net req =
          ⟨.error (.requestWrite cause),
            ⟨req.Method, req.URL, req.Header, "HTTP/1.1", 1, 1⟩,
            [.dial proxyURL.Host, .connWrite (connectRequest req.URL), .readProxyResponse,
              .UClient req.URL.Hostname, .ApplyPreset (newSpec u), .Handshake,
              .requestWrite ⟨req.Method, req.URL, req.Header, "HTTP/1.1", 1, 1⟩]⟩)) ∧
    (alpn ≠ "h2" → alpn ≠ "http/1.1" → alpn ≠ "" →
      RoundTrip u net req =
        ⟨.error (.unsupportedALPN alpn), req,
          [.dial proxyURL.Host, .connWrite (connectRequest req.URL), .readProxyResponse,
            .UClient req.URL.Hostname, .ApplyPreset (newSpec u), .Handshake]⟩ ∧
      (TransportError.unsupportedALPN alpn).message = "unsupported ALPN: " ++ alpn) := by
  have hrun : RoundTrip u net req =
      (dispatchALPN net req alpn).after
        [.dial proxyURL.Host, .connWrite (connectRequest req.URL), .readProxyResponse,
          .UClient req.URL.Hostname, .ApplyPreset (newSpec u), .Handshake] := by
    rw [RoundTrip_tunnel u net req proxy proxyURL hs hp hurl]
    simp [RoundTrip.tunnel, hdial, hwrite, hread, hstatus, RoundTrip.secure, hpreset, hshake,
      RoundTripRun.after]
  rw [hrun]
  refine ⟨?_, ?_, ?_⟩
  · intro h2
    subst h2
    refine ⟨?_, ?_, ?_⟩
    · cases hc : net.newClientConn <;> simp [dispatchALPN, RoundTripRun.after, hc]
    · intro hc
      simp [dispatchALPN, RoundTripRun.after, hc]
    · intro cause hc
      simp [dispatchALPN, RoundTripRun.after, hc]
  · intro h1
    have hne : alpn ≠ "h2" := by
      rcases h1 with h | h <;> rw [h] <;> decide
    refine ⟨?_, ?_, ?_⟩
    · cases hc : net.requestWrite ⟨req.Method, req.URL, req.Header, "HTTP/1.1", 1, 1⟩ <;>
        simp [dispatchALPN, RoundTripRun.after, hc, hne, h1]
    · intro hc
      simp [dispatchALPN, RoundTripRun.after, hc, hne, h1]
    · intro cause hc
      simp [dispatchALPN, RoundTripRun.after, hc, hne, h1]
  · intro h2 h1 h0
    simp [dispatchALPN, RoundTripRun.after, h2, h1, h0, TransportError.message]

/-- C9 with a peer that negotiates `spdy/3`, and with one that negotiates `h2`. -/
theorem RoundTrip_alpn_dispatch_witness :
    RoundTrip (NewClient exampleParse "http://127.0.0.1:7890" 3 5).client
        (tunnelNet ⟨200, "200 Connection established", 0, .eof []⟩ "spdy/3"
          ⟨200, "200 OK", 1, .eof [7]⟩)
        ⟨"GET", ⟨"https", "example.com", "", "example.com"⟩, ⟨[]⟩, "HTTP/1.1", 1, 1⟩ =
      ⟨.error (.unsupportedALPN "spdy/3"),
        ⟨"GET", ⟨"https", "example.com", "", "example.com"⟩, ⟨[]⟩, "HTTP/1.1", 1, 1⟩,
        [.dial "127.0.0.1:7890",
          .connWrite "CONNECT example.com:443 HTTP/1.1\r\nHost: example.com\r\n\r\n",
          .readProxyResponse, .UClient "example.com",
          .ApplyPreset (newSpec (NewClient exampleParse "http://127.0.0.1:7890" 3 5).client),
          .Handshake]⟩ ∧
    RoundTrip (NewClient exampleParse "http://127.0.0.1:7890" 3 5).client
        (tunnelNet ⟨200, "200 Connection established", 0, .eof []⟩ "h2"
          ⟨200, "200 OK", 1, .eof [7]⟩)
        ⟨"GET", ⟨"https", "example.com", "", "example.com"⟩, ⟨[]⟩, "HTTP/1.1", 1, 1⟩ =
      ⟨.response ⟨200, "200 OK", 1, .eof [7]⟩,
        ⟨"GET", ⟨"https", "example.com", "", "example.com"⟩, ⟨[]⟩, "HTTP/2.0", 2, 0⟩,
        [.dial "127.0.0.1:7890",
          .connWrite "CONNECT example.com:443 HTTP/1.1\r\nHost: example.com\r\n\r\n",
          .readProxyResponse, .UClient "example.com",
          .ApplyPreset (newSpec (NewClient exampleParse "http://127.0.0.1:7890" 3 5).client),
          .Handshake, .NewClientConn,
          .h2RoundTrip
            ⟨"GET", ⟨"https", "example.com", "", "example.com"⟩, ⟨[]⟩, "HTTP/2.0", 2, 0⟩]⟩ :=
  ⟨((RoundTrip_alpn_dispatch (NewClient exampleParse "http://127.0.0.1:7890" 3 5).client
      (tunnelNet ⟨200, "200 Connection established", 0, .eof []⟩ "spdy/3"
        ⟨200, "200 OK", 1, .eof [7]⟩)
      ⟨"GET", ⟨"https", "example.com", "", "example.com"⟩, ⟨[]⟩, "HTTP/1.1", 1, 1⟩
      (ProxyURL (exampleParse "http://127.0.0.1:7890"))
      ⟨"http", "127.0.0.1:7890", "7890", "127.0.0.1"⟩
      ⟨200, "200 Connection established", 0, .eof []⟩ "spdy/3"
      rfl rfl rfl rfl rfl rfl rfl rfl rfl).2.2 (by decide) (by decide) (by decide)).1,
    ((RoundTrip_alpn_dispatch (NewClient exampleParse "http://127.0.0.1:7890" 3 5).client
      (tunnelNet ⟨200, "200 Connection established", 0, .eof []⟩ "h2"
        ⟨200, "200 OK", 1, .eof [7]⟩)
      ⟨"GET", ⟨"https", "example.com", "", "example.com"⟩, ⟨[]⟩, "HTTP/1.1", 1, 1⟩
      (ProxyURL (exampleParse "http://127.0.0.1:7890"))
      ⟨"http", "127.0.0.1:7890", "7890", "127.0.0.1"⟩
      ⟨200, "200 Connection established", 0, .eof []⟩ "h2"
      rfl rfl rfl rfl rfl rfl rfl rfl rfl).1 rfl).2.1 rfl⟩

end CfDownloader
